import Mathlib

/-!
Verification development for the multi-round comparative search-evaluation
engine (Scorer / BinaryScorer / FivePointScorer / EvaluationManager /
BatchTestManager / ConfigManager).

Conventions of the shallow embedding:
* JavaScript numbers are modelled as exact rationals (ℚ); the only
  real-valued quantities are `std_dev` and `coefficient_of_variation`,
  which involve `Math.sqrt` and are exposed through `Real.sqrt` applied
  to the exactly-stored population variance.
* Text is modelled as `List Char` (the parsing layer) and `String`
  (names of dimensions and engines).
* A JS map object keyed by dimension name is modelled either as an
  association list or as a function `String → Option ScoreRecord`;
  a missing key is `none`, mirroring `undefined`.
* A `throw` in fallible JS code is modelled with `Option`/`Except`;
  the `TypeError` thrown by a property read on `null` carries an
  engine-dependent message, kept as a parameter `tyMsg` of the model.
* The value `parseAIResponse` returns is kept verbatim (`AIValue`,
  wrapping arbitrary JSON values); downstream coercions follow JS
  semantics — `ToNumber` with `NaN` and infinities (`JsNumber`),
  `Math.round`/`Math.min`/`Math.max` propagating `NaN`, and `||` by
  truthiness — so non-numeric score fields flow through faithfully.
-/

/-! ## Basic data model -/

/-- One evaluation dimension: `{name, weight}` from the configuration. -/
structure Dimension where
  name : String
  weight : ℚ
deriving DecidableEq, Repr

/-- A per-dimension score record as produced by `batchScoreDimension`
(successful call) or by the `catch` branch in `Scorer.batchScore`
(judge failure).  `error = true` only for the failure record. -/
structure ScoreRecord where
  score : ℚ
  reasoning : List Char
  dimension : String
  error : Bool
deriving DecidableEq, Repr

/-- Score of an optional record, `0` when absent (used only to state the
spec-side sum formulas; `calculateWeightedScore` itself never reads the
score of a missing record). -/
def scoreOf (o : Option ScoreRecord) : ℚ :=
  match o with
  | some r => r.score
  | none => 0

/-- The JS truthiness test `dimensionScore && !dimensionScore.error`:
the record exists and is not flagged as an error. -/
def recordOk (o : Option ScoreRecord) : Bool :=
  match o with
  | some r => !r.error
  | none => false

/-! ## Scorer.calculateWeightedScore (Scorer.js lines 125-138)

```js
calculateWeightedScore(scores) {
  let totalScore = 0;
  let totalWeight = 0;
  for (const dimension of this.dimensions) {
    const dimensionScore = scores[dimension.name];
    if (dimensionScore && !dimensionScore.error) {
      totalScore += dimensionScore.score * dimension.weight;
      totalWeight += dimension.weight;
    }
  }
  return totalWeight > 0 ? totalScore / totalWeight : 0;
}
```
-/

/-- The accumulation loop of `calculateWeightedScore`: the pair
`(totalScore, totalWeight)`. -/
def weightedTotals (dims : List Dimension) (scores : String → Option ScoreRecord) :
    ℚ × ℚ :=
  dims.foldl
    (fun acc d =>
      match scores d.name with
      | some r => if r.error then acc else (acc.1 + r.score * d.weight, acc.2 + d.weight)
      | none => acc)
    (0, 0)

/-- `Scorer.calculateWeightedScore`. -/
def calculateWeightedScore (dims : List Dimension)
    (scores : String → Option ScoreRecord) : ℚ :=
  let t := weightedTotals dims scores
  if 0 < t.2 then t.1 / t.2 else 0

/-- Spec-side formula (from the spec's words, for the refinement
comparison): the dimensions whose ScoreRecord exists and has `error≠true`. -/
def specValidDims (dims : List Dimension) (scores : String → Option ScoreRecord) :
    List Dimension :=
  dims.filter (fun d => recordOk (scores d.name))

/-- Spec-side numerator: sum of `score * weight` over the valid dimensions. -/
def specValidSum (dims : List Dimension) (scores : String → Option ScoreRecord) : ℚ :=
  ((specValidDims dims scores).map (fun d => scoreOf (scores d.name) * d.weight)).sum

/-- Spec-side denominator: sum of the valid dimensions' weights. -/
def specValidWeight (dims : List Dimension) (scores : String → Option ScoreRecord) : ℚ :=
  ((specValidDims dims scores).map (fun d => d.weight)).sum

/-- The loop accumulators agree with the spec-side list sums. -/
theorem weightedTotals_eq_spec (dims : List Dimension)
    (scores : String → Option ScoreRecord) :
    weightedTotals dims scores = (specValidSum dims scores, specValidWeight dims scores) := by
  suffices h : ∀ a b : ℚ,
      dims.foldl
        (fun acc d =>
          match scores d.name with
          | some r => if r.error then acc else (acc.1 + r.score * d.weight, acc.2 + d.weight)
          | none => acc)
        (a, b)
      = (a + specValidSum dims scores, b + specValidWeight dims scores) by
    have := h 0 0
    simpa [weightedTotals] using this
  induction dims with
  | nil =>
      intro a b
      simp [specValidSum, specValidWeight, specValidDims]
  | cons d ds ih =>
      intro a b
      cases hs : scores d.name with
      | none =>
          simp only [List.foldl_cons, hs]
          rw [ih a b]
          simp [specValidSum, specValidWeight, specValidDims, hs, recordOk]
      | some r =>
          cases hr : r.error with
          | true =>
              simp only [List.foldl_cons, hs]
              rw [hr, if_pos rfl, ih a b]
              simp [specValidSum, specValidWeight, specValidDims, hs, hr, recordOk]
          | false =>
              simp only [List.foldl_cons, hs]
              rw [hr, if_neg (by simp), ih (a + r.score * d.weight) (b + d.weight)]
              simp only [specValidSum, specValidWeight, specValidDims, List.filter_cons,
                recordOk, hs, hr]
              simp [scoreOf, hs, Prod.ext_iff, add_assoc]

/-- Closed form of the combiner. -/
theorem calculateWeightedScore_eq (dims : List Dimension)
    (scores : String → Option ScoreRecord) :
    calculateWeightedScore dims scores
      = if 0 < specValidWeight dims scores
        then specValidSum dims scores / specValidWeight dims scores
        else 0 := by
  unfold calculateWeightedScore
  rw [weightedTotals_eq_spec]

/-- C1: for every map of per-dimension ScoreRecords and every dimension
list, `calculateWeightedScore` returns the sum, over dimensions whose
ScoreRecord exists and has `error ≠ true`, of `score * weight`, divided
by the sum of those same dimensions' weights; when every dimension's
record is missing or errored it returns exactly `0`, and on a single
dimension of weight `1` whose record carries score `s` it returns
exactly `s`. -/
theorem c1_calculateWeightedScore_correct :
    (∀ (dims : List Dimension) (scores : String → Option ScoreRecord),
        0 < specValidWeight dims scores →
        calculateWeightedScore dims scores
          = specValidSum dims scores / specValidWeight dims scores)
  ∧ (∀ (dims : List Dimension) (scores : String → Option ScoreRecord),
        (∀ d ∈ dims, recordOk (scores d.name) = false) →
        calculateWeightedScore dims scores = 0)
  ∧ (∀ (n : String) (r : ScoreRecord),
        r.error = false →
        calculateWeightedScore [⟨n, 1⟩] (fun m => if m = n then some r else none)
          = r.score) := by
  refine ⟨?_, ?_, ?_⟩
  · intro dims scores h
    rw [calculateWeightedScore_eq, if_pos h]
  · intro dims scores h
    have hd : specValidDims dims scores = [] := by
      apply List.filter_eq_nil_iff.mpr
      intro d hdmem
      simp [h d hdmem]
    rw [calculateWeightedScore_eq]
    simp [specValidSum, specValidWeight, hd]
  · intro n r hr
    rw [calculateWeightedScore_eq]
    simp [specValidSum, specValidWeight, specValidDims, recordOk, hr, scoreOf]

/-- C1 witness: the combiner evaluated on concrete inputs, discharging
each hypothesis of `c1_calculateWeightedScore_correct` at that input. -/
theorem c1_calculateWeightedScore_correct_witness :
    calculateWeightedScore
        [⟨"relevance", 1/2⟩, ⟨"authority", 1/2⟩]
        (fun m => if m = "relevance" then some ⟨4, [], "relevance", false⟩ else none)
      = specValidSum
          [⟨"relevance", 1/2⟩, ⟨"authority", 1/2⟩]
          (fun m => if m = "relevance" then some ⟨4, [], "relevance", false⟩ else none)
        / specValidWeight
          [⟨"relevance", 1/2⟩, ⟨"authority", 1/2⟩]
          (fun m => if m = "relevance" then some ⟨4, [], "relevance", false⟩ else none)
  ∧ calculateWeightedScore [⟨"relevance", 1⟩] (fun _ => none) = 0
  ∧ calculateWeightedScore [⟨"freshness", 1⟩]
      (fun m => if m = "freshness" then some ⟨3, [], "freshness", false⟩ else none)
      = 3 := by
  refine ⟨?_, ?_, ?_⟩
  · exact c1_calculateWeightedScore_correct.1 _ _
      (by simp [specValidWeight, specValidDims, recordOk])
  · exact c1_calculateWeightedScore_correct.2.1 _ _ (by intro d hd; fin_cases hd; rfl)
  · exact c1_calculateWeightedScore_correct.2.2 "freshness" ⟨3, [], "freshness", false⟩ rfl

/-! ## String-scanning primitives

The judge-response parsers work with JavaScript regular expressions.
Each regex used by the source is simple enough to model directly with
leftmost-occurrence scanning over `List Char`; the model of each regex
is documented next to the function that embeds it. -/

/-- The characters of `"<result>"`. -/
def openTagChars : List Char := "<result>".data

/-- The characters of `"</result>"`. -/
def closeTagChars : List Char := "</result>".data

/-- Left brace and right brace characters (spelled via code points). -/
def lbrace : Char := Char.ofNat 123

/-- Right brace character. -/
def rbrace : Char := Char.ofNat 125

/-- Index of the first occurrence of `pat` in `s` (leftmost match of a
literal pattern). -/
def findSubIdx (pat : List Char) : List Char → Option Nat
  | [] => if pat = [] then some 0 else none
  | c :: rest =>
      if pat.isPrefixOf (c :: rest) then some 0
      else (findSubIdx pat rest).map (· + 1)

/-- JS `String.prototype.trim` (restricted to ASCII whitespace, which is
all the pipeline produces). -/
def jsTrim (s : List Char) : List Char :=
  ((s.dropWhile Char.isWhitespace).reverse.dropWhile Char.isWhitespace).reverse

/-- Numeric value of a digit run. -/
def digitsToNat (ds : List Char) : ℕ :=
  ds.foldl (fun acc c => acc * 10 + (c.toNat - 48)) 0

/-- The number matched by `/(\d+(?:\.\d+)?)/` when the text starts with a
digit: a greedy digit run, optionally followed by `.` and a further
digit run, converted as by `parseFloat`. -/
def takeNumber (s : List Char) : Option ℚ :=
  let ds := s.takeWhile Char.isDigit
  if ds = [] then none
  else
    match s.drop ds.length with
    | '.' :: r2 =>
        let fs := r2.takeWhile Char.isDigit
        if fs = [] then some (digitsToNat ds)
        else some ((digitsToNat ds : ℚ) + (digitsToNat fs : ℚ) / (10 : ℚ) ^ fs.length)
    | _ => some (digitsToNat ds)

/-- Leftmost match of `/(\d+(?:\.\d+)?)/`: the first decimal number
anywhere in the text. -/
def firstNumber : List Char → Option ℚ
  | [] => none
  | c :: rest => if c.isDigit then takeNumber (c :: rest) else firstNumber rest

/-- Strategy-1 tag extraction, the regex `/<result>(.*?)<\/result>/s`:
content between the first `<result>` and the first `</result>` after it
(`s` flag: the lazy dot crosses newlines). -/
def extractResultTag (s : List Char) : Option (List Char) :=
  match findSubIdx openTagChars s with
  | none => none
  | some i =>
      let rest := (s.drop i).drop 8
      match findSubIdx closeTagChars rest with
      | none => none
      | some j => some (rest.take j)

/-- First `</result>` with no line break before it (for the lazy dot
without the `s` flag, which cannot cross `\n`/`\r`). -/
def findCloseNoNL : List Char → Option Nat
  | [] => none
  | c :: rest =>
      if closeTagChars.isPrefixOf (c :: rest) then some 0
      else if c = '\n' ∨ c = '\r' then none
      else (findCloseNoNL rest).map (· + 1)

/-- Leftmost match of `/<result>.*?<\/result>/` (no `s` flag): start
index and total length of the matched text. -/
def findLazyLineTag : List Char → Option (Nat × Nat)
  | [] => none
  | c :: rest =>
      if openTagChars.isPrefixOf (c :: rest) then
        match findCloseNoNL ((c :: rest).drop 8) with
        | some j => some (0, 8 + j + 9)
        | none => (findLazyLineTag rest).map (fun p => (p.1 + 1, p.2))
      else (findLazyLineTag rest).map (fun p => (p.1 + 1, p.2))

/-- JS `content.replace(/<result>.*?<\/result>/, '')`: delete the first
same-line `<result>…</result>` span, if any. -/
def removeFirstLineTag (s : List Char) : List Char :=
  match findLazyLineTag s with
  | none => s
  | some (i, len) => s.take i ++ s.drop (i + len)

/-- Does `/<result>(\d+)<\/result>/` match at the head of `s`?  Returns
the captured digits' value. -/
def matchResultDigits (s : List Char) : Option ℕ :=
  if openTagChars.isPrefixOf s then
    let after := s.drop 8
    let ds := after.takeWhile Char.isDigit
    if ds = [] then none
    else if closeTagChars.isPrefixOf (after.drop ds.length) then some (digitsToNat ds)
    else none
  else none

/-- Leftmost match of `/<result>(\d+)<\/result>/` anywhere in `s`. -/
def scanResultDigits : List Char → Option ℕ
  | [] => none
  | c :: rest =>
      match matchResultDigits (c :: rest) with
      | some n => some n
      | none => scanResultDigits rest

/-- The three keyword alternatives of `/(?:得分|评分|分数).*?(\d+)/`. -/
def scoreKeywords : List (List Char) := ["得分".data, "评分".data, "分数".data]

/-- First digit run reachable without crossing a line break (the lazy
dot of the keyword regex has no `s` flag). -/
def digitsAfterNoNL : List Char → Option ℕ
  | [] => none
  | c :: rest =>
      if c.isDigit then some (digitsToNat ((c :: rest).takeWhile Char.isDigit))
      else if c = '\n' ∨ c = '\r' then none
      else digitsAfterNoNL rest

/-- Leftmost match of `/(?:得分|评分|分数).*?(\d+)/`. -/
def scanKeywordScore : List Char → Option ℕ
  | [] => none
  | c :: rest =>
      if scoreKeywords.any (fun k => k.isPrefixOf (c :: rest)) then
        match digitsAfterNoNL ((c :: rest).drop 2) with
        | some n => some n
        | none => scanKeywordScore rest
      else scanKeywordScore rest

/-! ## A JSON value model and `JSON.parse` -/

/-- JSON values as produced by `JSON.parse`. -/
inductive Json where
  | null : Json
  | bool : Bool → Json
  | num : ℚ → Json
  | str : List Char → Json
  | arr : List Json → Json
  | obj : List (List Char × Json) → Json

/-- JSON whitespace. -/
def jsonWs (c : Char) : Bool := c = ' ' ∨ c = '\t' ∨ c = '\n' ∨ c = '\r'

/-- Skip JSON whitespace. -/
def skipWs (s : List Char) : List Char := s.dropWhile jsonWs

/-- Value of a hexadecimal digit. -/
def hexVal (c : Char) : Option ℕ :=
  if c.isDigit then some (c.toNat - 48)
  else if 'a' ≤ c ∧ c ≤ 'f' then some (c.toNat - 87)
  else if 'A' ≤ c ∧ c ≤ 'F' then some (c.toNat - 55)
  else none

/-- Parse the body of a JSON string literal (after the opening quote):
returns the decoded content and the remaining input. -/
def parseJStr : ℕ → List Char → Option (List Char × List Char)
  | 0, _ => none
  | _, [] => none
  | fuel + 1, c :: rest =>
      if c = '"' then some ([], rest)
      else if c = '\\' then
        match rest with
        | [] => none
        | e :: r2 =>
            if e = '"' ∨ e = '\\' ∨ e = '/' then
              (parseJStr fuel r2).map (fun p => (e :: p.1, p.2))
            else if e = 'b' then (parseJStr fuel r2).map (fun p => ('\x08' :: p.1, p.2))
            else if e = 'f' then (parseJStr fuel r2).map (fun p => ('\x0c' :: p.1, p.2))
            else if e = 'n' then (parseJStr fuel r2).map (fun p => ('\n' :: p.1, p.2))
            else if e = 'r' then (parseJStr fuel r2).map (fun p => ('\r' :: p.1, p.2))
            else if e = 't' then (parseJStr fuel r2).map (fun p => ('\t' :: p.1, p.2))
            else if e = 'u' then
              match r2 with
              | h1 :: h2 :: h3 :: h4 :: r3 =>
                  match hexVal h1, hexVal h2, hexVal h3, hexVal h4 with
                  | some a, some b, some c3, some d =>
                      (parseJStr fuel r3).map
                        (fun p => (Char.ofNat (((a * 16 + b) * 16 + c3) * 16 + d) :: p.1, p.2))
                  | _, _, _, _ => none
              | _ => none
            else none
      else if c.toNat < 32 then none
      else (parseJStr fuel rest).map (fun p => (c :: p.1, p.2))

/-- Apply an optional JSON exponent part to an already-parsed mantissa. -/
def parseJExpApply (v : ℚ) (s : List Char) : Option (ℚ × List Char) :=
  match s with
  | c :: r =>
      if c = 'e' ∨ c = 'E' then
        let sr : Bool × List Char :=
          match r with
          | '+' :: r2 => (false, r2)
          | '-' :: r2 => (true, r2)
          | _ => (false, r)
        let es := sr.2.takeWhile Char.isDigit
        if es = [] then none
        else
          let e : ℤ := if sr.1 then -(digitsToNat es : ℤ) else (digitsToNat es : ℤ)
          some (v * (10 : ℚ) ^ e, sr.2.drop es.length)
      else some (v, s)
  | [] => some (v, s)

/-- Parse a JSON number token (strict JSON grammar: optional `-`, an
integer part without leading zeros, optional fraction, optional
exponent). -/
def parseJNum (s : List Char) : Option (ℚ × List Char) :=
  let sgn : Bool × List Char :=
    match s with
    | '-' :: r => (true, r)
    | _ => (false, s)
  let ds := sgn.2.takeWhile Char.isDigit
  if ds = [] then none
  else if 1 < ds.length ∧ ds.head? = some '0' then none
  else
    let s2 := sgn.2.drop ds.length
    let intPart : ℚ := (digitsToNat ds : ℚ)
    let fr : Option (ℚ × List Char) :=
      match s2 with
      | '.' :: r =>
          let fs := r.takeWhile Char.isDigit
          if fs = [] then none
          else some (intPart + (digitsToNat fs : ℚ) / (10 : ℚ) ^ fs.length, r.drop fs.length)
      | _ => some (intPart, s2)
    match fr with
    | none => none
    | some (v, s3) => parseJExpApply (if sgn.1 then -v else v) s3

mutual

/-- Parse one JSON value (fuelled; the fuel bounds the total number of
parser frames, which the top-level entry point makes generous). -/
def parseJVal : ℕ → List Char → Option (Json × List Char)
  | 0, _ => none
  | fuel + 1, s =>
      match skipWs s with
      | [] => none
      | c :: rest =>
          if c = '"' then (parseJStr (fuel + 1) rest).map (fun p => (Json.str p.1, p.2))
          else if c = lbrace then
            match skipWs rest with
            | d :: r2 =>
                if d = rbrace then some (Json.obj [], r2)
                else (parseJMembers fuel rest).map (fun p => (Json.obj p.1, p.2))
            | [] => none
          else if c = '[' then
            match skipWs rest with
            | ']' :: r2 => some (Json.arr [], r2)
            | _ => (parseJElems fuel rest).map (fun p => (Json.arr p.1, p.2))
          else if c = 't' then
            if ("rue".data).isPrefixOf rest then some (Json.bool true, rest.drop 3) else none
          else if c = 'f' then
            if ("alse".data).isPrefixOf rest then some (Json.bool false, rest.drop 4) else none
          else if c = 'n' then
            if ("ull".data).isPrefixOf rest then some (Json.null, rest.drop 3) else none
          else (parseJNum (c :: rest)).map (fun p => (Json.num p.1, p.2))

/-- Parse `"key": value (, …)* ` up to and including the closing brace. -/
def parseJMembers : ℕ → List Char → Option (List (List Char × Json) × List Char)
  | 0, _ => none
  | fuel + 1, s =>
      match skipWs s with
      | '"' :: rest =>
          match parseJStr (fuel + 1) rest with
          | none => none
          | some (key, r1) =>
              match skipWs r1 with
              | ':' :: r2 =>
                  match parseJVal fuel r2 with
                  | none => none
                  | some (v, r3) =>
                      match skipWs r3 with
                      | ',' :: r4 =>
                          (parseJMembers fuel r4).map (fun p => ((key, v) :: p.1, p.2))
                      | d :: r4 =>
                          if d = rbrace then some ([(key, v)], r4) else none
                      | [] => none
              | _ => none
      | _ => none

/-- Parse `value (, value)* ]`. -/
def parseJElems : ℕ → List Char → Option (List Json × List Char)
  | 0, _ => none
  | fuel + 1, s =>
      match parseJVal fuel s with
      | none => none
      | some (v, r1) =>
          match skipWs r1 with
          | ',' :: r2 => (parseJElems fuel r2).map (fun p => (v :: p.1, p.2))
          | ']' :: r2 => some ([v], r2)
          | _ => none

end

/-- `JSON.parse`: a complete JSON document, allowing surrounding
whitespace; `none` models a thrown `SyntaxError`. -/
def jsonParse (s : List Char) : Option Json :=
  match parseJVal (2 * s.length + 4) s with
  | some (v, rest) => if skipWs rest = [] then some v else none
  | none => none

/-- Field access on a parsed JSON object (`undefined` for non-objects
and missing keys; with duplicate keys the last binding wins, as in JS). -/
def jsonField (j : Json) (key : List Char) : Option Json :=
  match j with
  | Json.obj fields => fields.foldl (fun acc p => if p.1 = key then some p.2 else acc) none
  | _ => none

/-- Numeric value of an optional JSON field. -/
def jsonNumOpt : Option Json → Option ℚ
  | some (Json.num q) => some q
  | _ => none

/-- String value of an optional JSON field. -/
def jsonStrOpt : Option Json → Option (List Char)
  | some (Json.str t) => some t
  | _ => none

/-- JS truthiness of an optional JSON value (`undefined` is falsy). -/
def jsTruthy : Option Json → Bool
  | none => false
  | some Json.null => false
  | some (Json.bool b) => b
  | some (Json.num q) => q ≠ 0
  | some (Json.str t) => t ≠ []
  | some (Json.arr _) => true
  | some (Json.obj _) => true

/-! ## Scorer.parseAIResponse (Scorer.js lines 215-264)

```js
parseAIResponse(response) {
  try {
    const resultTagMatch = response.match(/<result>(.*?)<\/result>/s);
    if (resultTagMatch) {
      const resultContent = resultTagMatch[1].trim();
      const scoreMatch = resultContent.match(/(\d+(?:\.\d+)?)/);
      if (scoreMatch) {
        return { score: parseFloat(scoreMatch[1]), reasoning: response.trim() };
      }
      try { return JSON.parse(resultContent); } catch (e) { }
    }
    const jsonMatch = response.match(/\{[\s\S]*\}/);
    if (jsonMatch) { return JSON.parse(jsonMatch[0]); }
    const scoreMatch = response.match(/(\d+(?:\.\d+)?)/);
    if (scoreMatch) {
      return { score: parseFloat(scoreMatch[1]), reasoning: response.trim() };
    }
    throw new Error('...');
  } catch (error) {
    return { score: 0, reasoning: response, error: true };
  }
}
```
-/

/-- A projection of the value `parseAIResponse` returns: the `score`
field when it is a number (`none` otherwise or when absent), the
`reasoning` field when it is a string, and the truthiness of the
`error` field.  The verbatim value itself is modelled by `AIValue`
below; `parseAIResponse_eq_project` relates the two. -/
structure ParseResult where
  score : Option ℚ
  reasoning : Option (List Char)
  error : Bool
deriving DecidableEq, Repr

/-- The numeric/string projection of a JSON value returned verbatim by
`parseAIResponse` (a non-numeric `score` field projects to `none`; the
field value itself is preserved by the `AIValue` level below). -/
def resultOfJson (j : Json) : ParseResult :=
  ⟨jsonNumOpt (jsonField j ("score".data)),
   jsonStrOpt (jsonField j ("reasoning".data)),
   jsTruthy (jsonField j ("error".data))⟩

/-- The greedy `/\{[\s\S]*\}/` match: the span from the first left brace
to the last right brace (when the latter comes after the former). -/
def braceSpan (s : List Char) : Option (List Char) :=
  match s.findIdx? (fun c => c = lbrace), s.reverse.findIdx? (fun c => c = rbrace) with
  | some a, some rb =>
      let b := s.length - 1 - rb
      if a < b then some ((s.take (b + 1)).drop a) else none
  | _, _ => none

/-- Strategies 2 and 3 of `parseAIResponse` (the part after the
`<result>` tag attempt); `none` models reaching the `throw`, including
a `JSON.parse` failure on the brace span, which is not caught locally. -/
def parseAIRest (s : List Char) : Option ParseResult :=
  match braceSpan s with
  | some sub => (jsonParse sub).map resultOfJson
  | none => (firstNumber s).map (fun q => ⟨some q, some (jsTrim s), false⟩)

/-- The `try` block of `parseAIResponse`; `none` models a thrown error
reaching the `catch`. -/
def parseAIResponseCore (s : List Char) : Option ParseResult :=
  match extractResultTag s with
  | some content =>
      let c := jsTrim content
      match firstNumber c with
      | some q => some ⟨some q, some (jsTrim s), false⟩
      | none =>
          match jsonParse c with
          | some v => some (resultOfJson v)
          | none => parseAIRest s
  | none => parseAIRest s

/-- `Scorer.parseAIResponse` (total: the `catch` branch substitutes the
flagged zero-score record). -/
def parseAIResponse (s : List Char) : ParseResult :=
  (parseAIResponseCore s).getD ⟨some 0, some s, true⟩

/-! ## parseOverallAIResponse (BinaryScorer lines 583-622, FivePointScorer
part_000 lines 178-217; identical up to the default score in the catch)

```js
parseOverallAIResponse(content) {
  try {
    const resultMatch = content.match(/<result>(\d+)<\/result>/);
    if (resultMatch) {
      const score = parseInt(resultMatch[1]);
      return { score, reasoning: content.replace(/<result>.*?<\/result>/, '').trim() };
    }
    const parsed = this.parseAIResponse(content);
    if (parsed.score !== undefined) {
      return { score: parsed.score, reasoning: parsed.reasoning || content };
    }
    const scoreMatch = content.match(/(?:得分|评分|分数).*?(\d+)/);
    if (scoreMatch) { return { score: parseInt(scoreMatch[1]), reasoning: content }; }
    throw new Error('无法解析整体评分结果');
  } catch (error) {
    return { score: 0 /* FivePointScorer: 1 */, reasoning: `评分解析失败: ${error.message}` };
  }
}
```
-/

/-- The value `parseAIResponse` actually returns, kept verbatim: either
the JSON value from one of the `JSON.parse` branches (which may be
`null`, a primitive, an array or an object with fields of any type), or
one of the object literals the code itself builds (`{score, reasoning}`
with `error` absent, or the catch record `{score: 0, reasoning,
error: true}`).  `ParseResult` above is the numeric/string projection of
this value, sufficient for the strategy-order claim; the callers below
operate on the verbatim value. -/
inductive AIValue where
  | verbatim : Json → AIValue
  | built : ℚ → List Char → Bool → AIValue

/-- `parseAIRest`, at the verbatim-value level. -/
def parseAIValueRest (s : List Char) : Option AIValue :=
  match braceSpan s with
  | some sub => (jsonParse sub).map AIValue.verbatim
  | none => (firstNumber s).map (fun q => .built q (jsTrim s) false)

/-- `parseAIResponseCore`, at the verbatim-value level. -/
def parseAIValueCore (s : List Char) : Option AIValue :=
  match extractResultTag s with
  | some content =>
      let c := jsTrim content
      match firstNumber c with
      | some q => some (.built q (jsTrim s) false)
      | none =>
          match jsonParse c with
          | some v => some (.verbatim v)
          | none => parseAIValueRest s
  | none => parseAIValueRest s

/-- `Scorer.parseAIResponse` at the verbatim-value level (total; the
`catch` branch builds the flagged zero-score record). -/
def parseAIValue (s : List Char) : AIValue :=
  (parseAIValueCore s).getD (.built 0 s true)

/-- The projection from verbatim values to `ParseResult`. -/
def projectAIValue : AIValue → ParseResult
  | .verbatim v => resultOfJson v
  | .built q r e => ⟨some q, some r, e⟩

/-- The two levels agree: `parseAIResponse` is the projection of the
verbatim value (strategies 2 and 3). -/
theorem parseAIRest_eq_project (s : List Char) :
    parseAIRest s = (parseAIValueRest s).map projectAIValue := by
  unfold parseAIRest parseAIValueRest
  cases braceSpan s with
  | some sub => cases h : jsonParse sub <;> simp [h, projectAIValue]
  | none => cases h : firstNumber s <;> simp [h, projectAIValue]

/-- The two levels agree on every input. -/
theorem parseAIResponse_eq_project (s : List Char) :
    parseAIResponse s = projectAIValue (parseAIValue s) := by
  unfold parseAIResponse parseAIValue parseAIResponseCore parseAIValueCore
  cases h1 : extractResultTag s with
  | none =>
      rw [parseAIRest_eq_project]
      cases parseAIValueRest s <;> simp [projectAIValue]
  | some content =>
      cases h2 : firstNumber (jsTrim content) with
      | some q => simp [h2, projectAIValue]
      | none =>
          cases h3 : jsonParse (jsTrim content) with
          | some v => simp [h2, h3, projectAIValue]
          | none =>
              simp only [h2, h3]
              rw [parseAIRest_eq_project]
              cases parseAIValueRest s <;> simp [projectAIValue]

/-! ## JavaScript numbers and `ToNumber`

`Math.round(parsedResult.score || 0)` coerces the score field — which
may be any JSON value — with `ToNumber`, so the number model must carry
`NaN` and the infinities alongside the finite values. -/

/-- A JavaScript number: `NaN`, `±Infinity`, or a finite value.  JS
doubles are dyadic rationals, so `ℚ` embeds every reachable finite
value exactly; double rounding is not modelled. -/
inductive JsNumber where
  | nan : JsNumber
  | posInf : JsNumber
  | negInf : JsNumber
  | fin : ℚ → JsNumber
deriving DecidableEq, Repr

/-- JS `Math.round` on a finite value: round half up. -/
def jsRound (q : ℚ) : ℤ := ⌊q + 1 / 2⌋

/-- JS `Math.round`: `NaN` and the infinities pass through. -/
def jsRoundN : JsNumber → JsNumber
  | .fin q => .fin ((jsRound q : ℤ) : ℚ)
  | x => x

/-- JS `Math.min` of two numbers: `NaN` if either argument is `NaN`. -/
def jsMinN : JsNumber → JsNumber → JsNumber
  | .nan, _ => .nan
  | _, .nan => .nan
  | .negInf, _ => .negInf
  | _, .negInf => .negInf
  | .posInf, b => b
  | a, .posInf => a
  | .fin a, .fin b => .fin (min a b)

/-- JS `Math.max` of two numbers: `NaN` if either argument is `NaN`. -/
def jsMaxN : JsNumber → JsNumber → JsNumber
  | .nan, _ => .nan
  | _, .nan => .nan
  | .posInf, _ => .posInf
  | _, .posInf => .posInf
  | .negInf, b => b
  | a, .negInf => a
  | .fin a, .fin b => .fin (max a b)

/-- Decimal digits of a natural number (fuelled division by 10). -/
def natToDigits : ℕ → ℕ → List Char
  | 0, _ => []
  | _, 0 => []
  | fuel + 1, n => natToDigits fuel (n / 10) ++ [Char.ofNat (48 + n % 10)]

/-- Decimal string of a natural number. -/
def natStr (n : ℕ) : List Char :=
  if n = 0 then ['0'] else natToDigits (n + 1) n

/-- Multiplicity of the prime `p` in `n` (fuelled). -/
def countFactors (p : ℕ) : ℕ → ℕ → ℕ
  | 0, _ => 0
  | fuel + 1, n => if n ≠ 0 ∧ n % p = 0 then countFactors p fuel (n / p) + 1 else 0

/-- Decimal string of a rational whose denominator divides a power of
ten — which covers every JS double (dyadic) and every value produced by
the JSON parser here.  JS switches to exponent notation for very large
or very small magnitudes; the plain decimal form used here denotes the
same number, which is all `ToNumber` round-trips observe.  The final
fallback is unreachable for such values. -/
def qToString (q : ℚ) : List Char :=
  let sign : List Char := if q < 0 then ['-'] else []
  let a := |q|
  let d := a.den
  let k := max (countFactors 2 d d) (countFactors 5 d d)
  let scaled := a * (10 : ℚ) ^ k
  if scaled.den = 1 then
    let digits := natStr scaled.num.toNat
    if k = 0 then sign ++ digits
    else
      let padded :=
        if digits.length ≤ k then List.replicate (k + 1 - digits.length) '0' ++ digits
        else digits
      let ip := padded.take (padded.length - k)
      let fp := ((padded.drop (padded.length - k)).reverse.dropWhile (fun c => c = '0')).reverse
      if fp = [] then sign ++ ip else sign ++ ip ++ '.' :: fp
  else sign ++ natStr a.num.toNat

/-- Structural size of a JSON value, used as recursion fuel for the
array-join rendering (the join never descends into objects, whose
primitive form is the fixed `"[object Object]"`). -/
def jsonSize : Json → ℕ
  | Json.null => 1
  | Json.bool _ => 1
  | Json.num _ => 1
  | Json.str _ => 1
  | Json.arr es => 1 + (es.attach.map (fun p => jsonSize p.1)).sum + es.length
  | Json.obj _ => 1
decreasing_by
  have h := List.sizeOf_lt_of_mem p.2
  simp only [Json.arr.sizeOf_spec]
  omega

mutual

/-- `ToString` of one element inside `Array.prototype.join` (`null`
becomes the empty string there). -/
def jsJoinElem : ℕ → Json → List Char
  | 0, _ => []
  | _ + 1, Json.null => []
  | _ + 1, Json.bool b => if b then "true".data else "false".data
  | _ + 1, Json.num q => qToString q
  | _ + 1, Json.str t => t
  | fuel + 1, Json.arr es => jsJoinList fuel es
  | _ + 1, Json.obj _ => "[object Object]".data

/-- `Array.prototype.join(',')`, the `ToString` of an array. -/
def jsJoinList : ℕ → List Json → List Char
  | 0, _ => []
  | _ + 1, [] => []
  | fuel + 1, [x] => jsJoinElem fuel x
  | fuel + 1, x :: xs => jsJoinElem fuel x ++ ',' :: jsJoinList fuel xs

end

/-- A non-decimal integer literal (`0x…`, `0o…`, `0b…`) for `ToNumber`. -/
def parseRadix (base : ℕ) (ds : List Char) : JsNumber :=
  if ds ≠ [] ∧ ds.all (fun c =>
      match hexVal c with
      | some v => v < base
      | none => false)
  then .fin ((ds.foldl (fun acc c => acc * base + (hexVal c).getD 0) 0 : ℕ) : ℚ)
  else .nan

/-- The optional exponent tail of a string numeric literal; the whole
remaining input must be consumed. -/
def parseExpEnd (v : ℚ) (r : List Char) : Option ℚ :=
  match r with
  | [] => some v
  | c :: r2 =>
      if c = 'e' ∨ c = 'E' then
        let sp : Bool × List Char :=
          match r2 with
          | '+' :: r3 => (false, r3)
          | '-' :: r3 => (true, r3)
          | _ => (false, r2)
        let es := sp.2.takeWhile Char.isDigit
        if es = [] ∨ sp.2.drop es.length ≠ [] then none
        else some (v * (10 : ℚ) ^
          (if sp.1 then -(digitsToNat es : ℤ) else (digitsToNat es : ℤ)))
      else none

/-- An unsigned decimal string numeric literal:
`digits [. digits?] | . digits`, optional exponent, nothing left over
(unlike JSON, `ToNumber` accepts `1.`, `.5` and leading zeros). -/
def parseUnsignedDecNum (t : List Char) : Option ℚ :=
  let ds := t.takeWhile Char.isDigit
  match t.drop ds.length with
  | '.' :: r2 =>
      let fs := r2.takeWhile Char.isDigit
      if ds = [] ∧ fs = [] then none
      else
        parseExpEnd
          ((digitsToNat ds : ℚ) + (digitsToNat fs : ℚ) / (10 : ℚ) ^ fs.length)
          (r2.drop fs.length)
  | r1 =>
      if ds = [] then none
      else parseExpEnd (digitsToNat ds : ℚ) r1

/-- A signed decimal literal or `±Infinity`. -/
def parseSignedDec (t : List Char) : JsNumber :=
  let sp : Bool × List Char :=
    match t with
    | '+' :: r => (false, r)
    | '-' :: r => (true, r)
    | _ => (false, t)
  if sp.2 = "Infinity".data then (if sp.1 then .negInf else .posInf)
  else
    match parseUnsignedDecNum sp.2 with
    | some v => .fin (if sp.1 then -v else v)
    | none => .nan

/-- `ToNumber` on a string (the StringNumericLiteral grammar): trimmed;
empty is `0`; `0x`/`0o`/`0b` radix literals (no sign); otherwise a
signed decimal or `±Infinity`; anything else is `NaN`. -/
def jsStringToNumber (s : List Char) : JsNumber :=
  let t := jsTrim s
  if t = [] then .fin 0
  else
    match t with
    | '0' :: x :: rest =>
        if x = 'x' ∨ x = 'X' then parseRadix 16 rest
        else if x = 'o' ∨ x = 'O' then parseRadix 8 rest
        else if x = 'b' ∨ x = 'B' then parseRadix 2 rest
        else parseSignedDec t
    | _ => parseSignedDec t

/-- `ToNumber` of a JSON value: numbers pass through; `null` is `0`,
booleans `0`/`1`; strings via the string grammar; a plain object's
primitive form is `"[object Object]"`, hence `NaN`; an array goes
through its `join(',')` string. -/
def toNumber (j : Json) : JsNumber :=
  match j with
  | Json.num q => .fin q
  | Json.null => .fin 0
  | Json.bool b => .fin (if b then 1 else 0)
  | Json.str t => jsStringToNumber t
  | Json.obj _ => .nan
  | Json.arr es => jsStringToNumber (jsJoinList (jsonSize (Json.arr es)) es)

/-- JS `v || d` on a JSON value, by truthiness. -/
def jsOrJ (v d : Json) : Json := if jsTruthy (some v) then v else d

/-- JS `v || d` where `v` may be `undefined`. -/
def jsOrJsonOpt (v : Option Json) (d : Json) : Json :=
  if jsTruthy v then v.getD d else d

/-! ## parseOverallAIResponse, on verbatim values.

Reading `parsed.score` on the value `parseAIResponse` returned is a JS
property access: it throws a `TypeError` when `parsed` is `null` (which
the generic parser returns for e.g. `<result>null</result>`), is
`undefined` on other primitives and arrays, and is the field value —
of any type, `null` and `"n/a"` included — on objects. -/

/-- The `parsed.score` property read; `Except.error` is the
`TypeError`. -/
def scoreFieldRead (v : AIValue) : Except Unit (Option Json) :=
  match v with
  | .verbatim Json.null => .error ()
  | .verbatim j => .ok (jsonField j ("score".data))
  | .built q _ _ => .ok (some (Json.num q))

/-- The `parsed.reasoning` property read (only reached when the score
read succeeded, so `parsed` is not `null`). -/
def reasoningFieldRead (v : AIValue) : Option Json :=
  match v with
  | .verbatim j => jsonField j ("reasoning".data)
  | .built _ r _ => some (Json.str r)

/-- What the `try` block of `parseOverallAIResponse` can throw: its own
`new Error('无法解析整体评分结果')`, or the `TypeError` from reading
`.score` of `null`. -/
inductive OverallErr where
  | unparseable : OverallErr
  | nullScoreRead : OverallErr
deriving DecidableEq, Repr

/-- The object returned by `parseOverallAIResponse`: both fields always
present, but of arbitrary JS type (branch 2 passes the score field
through verbatim). -/
structure OverallResult where
  score : Json
  reasoning : Json

/-- The message of the explicit parse-failure throw. -/
def unparseableMsg : List Char := "无法解析整体评分结果".data

/-- The catch branch's reasoning: `评分解析失败: ${error.message}`. -/
def overallFailReason (m : List Char) : List Char :=
  ("评分解析失败: ".data) ++ m

/-- The `try` block of `parseOverallAIResponse`. -/
def parseOverallTry (s : List Char) : Except OverallErr OverallResult :=
  match scanResultDigits s with
  | some n => .ok ⟨Json.num (n : ℚ), Json.str (jsTrim (removeFirstLineTag s))⟩
  | none =>
      match scoreFieldRead (parseAIValue s) with
      | .error _ => .error .nullScoreRead
      | .ok (some sc) =>
          .ok ⟨sc, jsOrJsonOpt (reasoningFieldRead (parseAIValue s)) (Json.str s)⟩
      | .ok none =>
          match scanKeywordScore s with
          | some n => .ok ⟨Json.num (n : ℚ), Json.str s⟩
          | none => .error .unparseable

/-- Which error, if any, the `try` block of `parseOverallAIResponse`
throws on this input. -/
def overallThrown (s : List Char) : Option OverallErr :=
  match parseOverallTry s with
  | .error e => some e
  | .ok _ => none

/-- The message carried by the caught error.  The `TypeError` text is
engine-dependent, so it is a parameter `tyMsg` of the model. -/
def errMessage (tyMsg : List Char) : OverallErr → List Char
  | .unparseable => unparseableMsg
  | .nullScoreRead => tyMsg

/-- `parseOverallAIResponse`, parameterized by the default score of the
`catch` branch (`0` for `BinaryScorer`, `1` for `FivePointScorer`) and
by the engine's `TypeError` message text. -/
def parseOverallAIResponse (deflt : ℚ) (tyMsg : List Char) (s : List Char) :
    OverallResult :=
  match parseOverallTry s with
  | .ok r => r
  | .error e => ⟨Json.num deflt, Json.str (overallFailReason (errMessage tyMsg e))⟩

/-! ## batchScoreDimension (BinaryScorer lines 508-532, FivePointScorer
part_000 lines 100-124): build the stored record from the judge text.
The stored score is a JS number: `Math.round` coerces the score field
with `ToNumber`, so a defined, truthy, non-numeric score yields `NaN`,
which the `Math.min`/`Math.max` clamp propagates. -/

/-- The record built by a successful `batchScoreDimension` call (the
`error` field is never set on this path). -/
structure JsScoreRecord where
  score : JsNumber
  reasoning : Json
  dimension : String
  error : Bool

/-- `BinaryScorer.batchScoreDimension`:
`score = Math.max(0, Math.min(2, Math.round(parsedResult.score || 0)))`. -/
def binaryBatchScoreDimension (tyMsg : List Char) (dim : String)
    (content : List Char) : JsScoreRecord :=
  let p := parseOverallAIResponse 0 tyMsg content
  ⟨jsMaxN (.fin 0) (jsMinN (.fin 2) (jsRoundN (toNumber (jsOrJ p.score (Json.num 0))))),
   jsOrJ p.reasoning (Json.str ("整体评分理由".data)), dim, false⟩

/-- `FivePointScorer.batchScoreDimension`:
`score = Math.max(1, Math.min(5, Math.round(parsedResult.score || 1)))`. -/
def fivePointBatchScoreDimension (tyMsg : List Char) (dim : String)
    (content : List Char) : JsScoreRecord :=
  let p := parseOverallAIResponse 1 tyMsg content
  ⟨jsMaxN (.fin 1) (jsMinN (.fin 5) (jsRoundN (toNumber (jsOrJ p.score (Json.num 1))))),
   jsOrJ p.reasoning (Json.str ("整体评分理由".data)), dim, false⟩

/-- The `Math.max(lo, Math.min(hi, Math.round(n)))` clamp yields an
integer in `[lo, hi]` for every non-`NaN` input, infinities included. -/
theorem jsClamp_of_ne_nan (lo hi : ℤ) (hlohi : lo ≤ hi) (n : JsNumber)
    (h : n ≠ .nan) :
    ∃ k : ℤ, jsMaxN (.fin (lo : ℚ)) (jsMinN (.fin (hi : ℚ)) (jsRoundN n))
        = .fin (k : ℚ) ∧ lo ≤ k ∧ k ≤ hi := by
  cases n with
  | nan => exact absurd rfl h
  | posInf =>
      refine ⟨hi, ?_, hlohi, le_refl hi⟩
      show jsMaxN (.fin (lo : ℚ)) (.fin (hi : ℚ)) = JsNumber.fin (hi : ℚ)
      show JsNumber.fin (max (lo : ℚ) (hi : ℚ)) = JsNumber.fin (hi : ℚ)
      rw [max_eq_right (by exact_mod_cast hlohi)]
  | negInf =>
      refine ⟨lo, ?_, le_refl lo, hlohi⟩
      rfl
  | fin q =>
      refine ⟨max lo (min hi (jsRound q)), ?_, le_max_left _ _, ?_⟩
      · show JsNumber.fin (max (lo : ℚ) (min (hi : ℚ) ((jsRound q : ℤ) : ℚ)))
            = JsNumber.fin ((max lo (min hi (jsRound q)) : ℤ) : ℚ)
        push_cast
        rfl
      · have := min_le_left hi (jsRound q)
        omega

/-- C2 counterexample: on the judge response `{"score": "n/a"}` the
score field is defined (so `parsedResult.score || 0` keeps the string
`"n/a"`), `Math.round` coerces it with `ToNumber` to `NaN`, and the
clamp propagates `NaN`: the stored record carries `NaN` — no integer of
the scale, and outside `{0,1,2}` — with `error = false`, contradicting
the claim that every stored score is an integer inside the scale's
bounds. -/
theorem c2_counterexample_nan_score :
    (binaryBatchScoreDimension [] "relevance" ("\x7b\"score\": \"n/a\"\x7d".data)).score
      = JsNumber.nan
  ∧ (∀ k : ℤ,
      (binaryBatchScoreDimension [] "relevance" ("\x7b\"score\": \"n/a\"\x7d".data)).score
        ≠ JsNumber.fin (k : ℚ))
  ∧ (binaryBatchScoreDimension [] "relevance" ("\x7b\"score\": \"n/a\"\x7d".data)).error
      = false := by
  have hnan : (binaryBatchScoreDimension [] "relevance"
      ("\x7b\"score\": \"n/a\"\x7d".data)).score = JsNumber.nan := by decide
  refine ⟨hnan, ?_, rfl⟩
  intro k h
  rw [hnan] at h
  exact JsNumber.noConfusion h

/-- C2 (amended): whenever the coerced score is not `NaN` — in
particular on every numeric, boolean, numeric-string, or absent
(defaulted) score field, infinities included — `batchScoreDimension`
stores an integer inside the scale's bounds (`{0,1,2}` binary,
`{1,2,3,4,5}` five-point); when the coercion yields `NaN` (a defined,
truthy, non-numeric score field such as `"n/a"`, an object or a
non-numeric array), the stored score is `NaN`; in every case
`error = false` — the record is never rejected. -/
theorem c2_batchScoreDimension_scale_amended :
    (∀ (tyMsg : List Char) (dim : String) (content : List Char),
        toNumber (jsOrJ (parseOverallAIResponse 0 tyMsg content).score (Json.num 0))
            ≠ JsNumber.nan →
        ∃ k : ℤ, (binaryBatchScoreDimension tyMsg dim content).score
            = JsNumber.fin (k : ℚ) ∧ k ∈ ({0, 1, 2} : Finset ℤ))
  ∧ (∀ (tyMsg : List Char) (dim : String) (content : List Char),
        toNumber (jsOrJ (parseOverallAIResponse 1 tyMsg content).score (Json.num 1))
            ≠ JsNumber.nan →
        ∃ k : ℤ, (fivePointBatchScoreDimension tyMsg dim content).score
            = JsNumber.fin (k : ℚ) ∧ k ∈ ({1, 2, 3, 4, 5} : Finset ℤ))
  ∧ (∀ (tyMsg : List Char) (dim : String) (content : List Char),
        toNumber (jsOrJ (parseOverallAIResponse 0 tyMsg content).score (Json.num 0))
            = JsNumber.nan →
        (binaryBatchScoreDimension tyMsg dim content).score = JsNumber.nan)
  ∧ (∀ (tyMsg : List Char) (dim : String) (content : List Char),
        toNumber (jsOrJ (parseOverallAIResponse 1 tyMsg content).score (Json.num 1))
            = JsNumber.nan →
        (fivePointBatchScoreDimension tyMsg dim content).score = JsNumber.nan)
  ∧ (∀ (tyMsg : List Char) (dim : String) (content : List Char),
        (binaryBatchScoreDimension tyMsg dim content).error = false
          ∧ (fivePointBatchScoreDimension tyMsg dim content).error = false) := by
  refine ⟨?_, ?_, ?_, ?_, ?_⟩
  · intro tyMsg dim content h
    obtain ⟨k, hk, h1, h2⟩ := jsClamp_of_ne_nan 0 2 (by norm_num) _ h
    push_cast at hk
    refine ⟨k, hk, ?_⟩
    simp only [Finset.mem_insert, Finset.mem_singleton]
    omega
  · intro tyMsg dim content h
    obtain ⟨k, hk, h1, h2⟩ := jsClamp_of_ne_nan 1 5 (by norm_num) _ h
    push_cast at hk
    refine ⟨k, hk, ?_⟩
    simp only [Finset.mem_insert, Finset.mem_singleton]
    omega
  · intro tyMsg dim content h
    show jsMaxN (.fin 0) (jsMinN (.fin 2) (jsRoundN (toNumber
        (jsOrJ (parseOverallAIResponse 0 tyMsg content).score (Json.num 0)))))
      = JsNumber.nan
    rw [h]
    rfl
  · intro tyMsg dim content h
    show jsMaxN (.fin 1) (jsMinN (.fin 5) (jsRoundN (toNumber
        (jsOrJ (parseOverallAIResponse 1 tyMsg content).score (Json.num 1)))))
      = JsNumber.nan
    rw [h]
    rfl
  · intro tyMsg dim content
    exact ⟨rfl, rfl⟩

/-- C2 witness: `c2_batchScoreDimension_scale_amended` at concrete
inputs — an in-scale binary score from `<result>2</result>`, a
five-point score clamped from `<result>9</result>` to `5`, and the
`NaN` path on `{"score": {}}`. -/
theorem c2_batchScoreDimension_scale_amended_witness :
    (∃ k : ℤ, (binaryBatchScoreDimension [] "relevance"
        ("<result>2</result>".data)).score = JsNumber.fin (k : ℚ)
      ∧ k ∈ ({0, 1, 2} : Finset ℤ))
  ∧ (∃ k : ℤ, (fivePointBatchScoreDimension [] "relevance"
        ("<result>9</result>".data)).score = JsNumber.fin (k : ℚ)
      ∧ k ∈ ({1, 2, 3, 4, 5} : Finset ℤ))
  ∧ (binaryBatchScoreDimension [] "relevance"
        ("\x7b\"score\": \x7b\x7d\x7d".data)).score = JsNumber.nan := by
  refine ⟨?_, ?_, ?_⟩
  · exact c2_batchScoreDimension_scale_amended.1 [] "relevance" _ (by decide)
  · exact c2_batchScoreDimension_scale_amended.2.1 [] "relevance" _ (by decide)
  · exact c2_batchScoreDimension_scale_amended.2.2.1 [] "relevance" _ (by decide)

/-! ## Claims C7 and C8: the parse boundary -/

/-- C8 counterexample: on a `<result>` tag whose content is the JSON
object `{"reasoning": "2 issues", "score": 5}`, the claim predicts the
JSON parse (score `5`, reasoning `"2 issues"`), but the source tries the
digit regex on the tag content first and returns the first decimal
number found there — `2`, from the reasoning text — with the whole
trimmed response as reasoning. -/
theorem c8_counterexample_parseAIResponse_json_in_tag :
    parseAIResponse ("<result>\x7b\"reasoning\": \"2 issues\", \"score\": 5\x7d</result>".data)
      = ⟨some 2, some ("<result>\x7b\"reasoning\": \"2 issues\", \"score\": 5\x7d</result>".data), false⟩
  ∧ (parseAIResponse ("<result>\x7b\"reasoning\": \"2 issues\", \"score\": 5\x7d</result>".data)).score
      ≠ some 5
  ∧ (parseAIResponse ("<result>\x7b\"reasoning\": \"2 issues\", \"score\": 5\x7d</result>".data)).reasoning
      ≠ some ("2 issues".data) := by
  refine ⟨by decide, by decide, by decide⟩

/-- C8 (amended): `parseAIResponse` tries its strategies in priority
order — (1) a `<result>…</result>` tag whose trimmed content contains a
decimal number yields the first such number as score and the full
trimmed response as reasoning (so a JSON object inside the tag that
contains any digit is consumed by this rule, not parsed as JSON);
(2) only a digit-free tag content is parsed as JSON; (3) else the text
spanning the first `{` to the last `}` is parsed as JSON; (4) else the
first decimal number in the text is the score with the trimmed text as
reasoning. -/
theorem c8_parseAIResponse_priority_order :
    (∀ (s content : List Char) (q : ℚ),
        extractResultTag s = some content →
        firstNumber (jsTrim content) = some q →
        parseAIResponse s = ⟨some q, some (jsTrim s), false⟩)
  ∧ (∀ (s content : List Char) (v : Json),
        extractResultTag s = some content →
        firstNumber (jsTrim content) = none →
        jsonParse (jsTrim content) = some v →
        parseAIResponse s = resultOfJson v)
  ∧ (∀ (s sub : List Char) (v : Json),
        extractResultTag s = none →
        braceSpan s = some sub →
        jsonParse sub = some v →
        parseAIResponse s = resultOfJson v)
  ∧ (∀ (s : List Char) (q : ℚ),
        extractResultTag s = none →
        braceSpan s = none →
        firstNumber s = some q →
        parseAIResponse s = ⟨some q, some (jsTrim s), false⟩) := by
  refine ⟨?_, ?_, ?_, ?_⟩
  · intro s content q h1 h2
    simp [parseAIResponse, parseAIResponseCore, h1, h2]
  · intro s content v h1 h2 h3
    simp [parseAIResponse, parseAIResponseCore, h1, h2, h3]
  · intro s sub v h1 h2 h3
    simp [parseAIResponse, parseAIResponseCore, parseAIRest, h1, h2, h3]
  · intro s q h1 h2 h3
    simp [parseAIResponse, parseAIResponseCore, parseAIRest, h1, h2, h3]

/-- C8 witness: each priority rule of
`c8_parseAIResponse_priority_order` exercised at a concrete input. -/
theorem c8_parseAIResponse_priority_order_witness :
    parseAIResponse ("<result> 4 </result>ok".data)
      = ⟨some 4, some ("<result> 4 </result>ok".data), false⟩
  ∧ parseAIResponse ("<result>\x7b\"score\": true\x7d</result>".data)
      = resultOfJson (Json.obj [("score".data, Json.bool true)])
  ∧ parseAIResponse ("ok \x7b\"score\": 3\x7d".data)
      = resultOfJson (Json.obj [("score".data, Json.num 3)])
  ∧ parseAIResponse ("the score is 4".data)
      = ⟨some 4, some ("the score is 4".data), false⟩ := by
  refine ⟨?_, ?_, ?_, ?_⟩
  · exact c8_parseAIResponse_priority_order.1 _ (" 4 ".data) _ (by decide) (by decide)
  · exact c8_parseAIResponse_priority_order.2.1 _
      ("\x7b\"score\": true\x7d".data) _ (by decide) (by decide) (by rfl)
  · exact c8_parseAIResponse_priority_order.2.2.1 _
      ("\x7b\"score\": 3\x7d".data) _ (by decide) (by decide) (by rfl)
  · exact c8_parseAIResponse_priority_order.2.2.2 _ _ (by decide) (by decide) (by decide)

/-- C7 counterexample: on the input `{"ok": 1}` every parse step of
`FivePointScorer.parseOverallAIResponse` fails (the brace span parses
as JSON but has no `score` field, and no fallback applies), and the
parser returns the minimum score `1` with the failure message
`评分解析失败: 无法解析整体评分结果` as reasoning — not the raw response
text, and with no `error` flag in the returned record — contradicting
the claim that the raw text is preserved as reasoning together with
`error: true`. -/
theorem c7_counterexample_parseOverall_not_flagged :
    parseOverallAIResponse 1 [] ("\x7b\"ok\": 1\x7d".data)
      = ⟨Json.num 1, Json.str (overallFailReason unparseableMsg)⟩
  ∧ Json.str (overallFailReason unparseableMsg)
      ≠ Json.str ("\x7b\"ok\": 1\x7d".data) := by
  refine ⟨rfl, ?_⟩
  simp only [ne_eq, Json.str.injEq]
  decide

/-- C7 (amended): parsing never throws past the parse boundary.  The
generic parser `parseAIResponse`, on every input on which no parse step
succeeds, returns the flagged record: score `0`, `error: true`, and the
raw response text preserved as reasoning.  The batch overall-score
parsers of both scorers catch every error their `try` block can throw
and degrade to the scale's zero/minimum default score (binary `0`,
five-point `1`); the reasoning is `评分解析失败: ` followed by the
caught error's message — the fixed text `无法解析整体评分结果` for the
parser's own throw, and the engine's `TypeError` message when reading
`.score` of a `null` parse result threw — never the raw text, and the
returned record has no error flag. -/
theorem c7_parse_failures_degrade :
    (∀ s : List Char, parseAIResponseCore s = none →
        parseAIResponse s = ⟨some 0, some s, true⟩)
  ∧ (∀ (tyMsg s : List Char), overallThrown s = some .unparseable →
        parseOverallAIResponse 0 tyMsg s
            = ⟨Json.num 0, Json.str (overallFailReason unparseableMsg)⟩
          ∧ parseOverallAIResponse 1 tyMsg s
            = ⟨Json.num 1, Json.str (overallFailReason unparseableMsg)⟩)
  ∧ (∀ (tyMsg s : List Char), overallThrown s = some .nullScoreRead →
        parseOverallAIResponse 0 tyMsg s
            = ⟨Json.num 0, Json.str (overallFailReason tyMsg)⟩
          ∧ parseOverallAIResponse 1 tyMsg s
            = ⟨Json.num 1, Json.str (overallFailReason tyMsg)⟩) := by
  have key : ∀ (e : OverallErr) (tyMsg s : List Char) (d : ℚ),
      overallThrown s = some e →
      parseOverallAIResponse d tyMsg s
        = ⟨Json.num d, Json.str (overallFailReason (errMessage tyMsg e))⟩ := by
    intro e tyMsg s d h
    unfold overallThrown at h
    unfold parseOverallAIResponse
    cases htry : parseOverallTry s with
    | ok r =>
        rw [htry] at h
        exact Option.noConfusion h
    | error e2 =>
        rw [htry] at h
        have he : e2 = e := Option.some.inj h
        subst he
        rfl
  refine ⟨?_, ?_, ?_⟩
  · intro s h
    simp [parseAIResponse, h]
  · intro tyMsg s h
    exact ⟨key .unparseable tyMsg s 0 h, key .unparseable tyMsg s 1 h⟩
  · intro tyMsg s h
    exact ⟨key .nullScoreRead tyMsg s 0 h, key .nullScoreRead tyMsg s 1 h⟩

/-- C7 witness: `c7_parse_failures_degrade` applied at concrete inputs
— a text on which every step of `parseAIResponse` fails, a JSON object
without a score field (the parser's own throw), and
`<result>null</result>`, where `JSON.parse` of the tag content returns
`null` and the `.score` read throws a `TypeError` (its engine-dependent
text instantiated here as `TypeError`). -/
theorem c7_parse_failures_degrade_witness :
    parseAIResponse ("no numeric content here".data)
      = ⟨some 0, some ("no numeric content here".data), true⟩
  ∧ parseOverallAIResponse 0 [] ("\x7b\"note\": 7\x7d".data)
      = ⟨Json.num 0, Json.str (overallFailReason unparseableMsg)⟩
  ∧ parseOverallAIResponse 1 ("TypeError".data) ("<result>null</result>".data)
      = ⟨Json.num 1, Json.str (overallFailReason ("TypeError".data))⟩ := by
  refine ⟨?_, ?_, ?_⟩
  · exact c7_parse_failures_degrade.1 _ (by decide)
  · exact (c7_parse_failures_degrade.2.1 [] ("\x7b\"note\": 7\x7d".data) (by decide)).1
  · exact (c7_parse_failures_degrade.2.2 ("TypeError".data)
      ("<result>null</result>".data) (by decide)).2

/-! ## Scorer.batchScore (Scorer.js lines 31-107) and the repeat
aggregation of EvaluationManager.calculateAverageScoresFromRepeats
(lines 952-1004). -/

/-- The error ScoreRecord created when one dimension's
`batchScoreDimension` call throws (`Scorer.batchScore`, `catch`):
`{score: 0, reasoning: '批量评分失败: …', error: true}`. -/
def judgeErrorRecord (dim : String) (msg : List Char) : ScoreRecord :=
  ⟨0, ("批量评分失败: ".data) ++ msg, dim, true⟩

/-- The per-dimension loop of `batchScore`: `scoreDim` models
`this.batchScoreDimension` (`Except.error` = a thrown judge failure,
caught and converted to the error ScoreRecord for that dimension only,
after which the loop continues with the remaining dimensions). -/
def dimensionScoresList (dims : List Dimension)
    (scoreDim : String → Except (List Char) ScoreRecord) :
    List (String × ScoreRecord) :=
  dims.map (fun d =>
    (d.name,
      match scoreDim d.name with
      | .ok r => r
      | .error msg => judgeErrorRecord d.name msg))

/-- Read the per-dimension score map (a JS object keyed by name). -/
def lookupScores (m : List (String × ScoreRecord)) : String → Option ScoreRecord :=
  fun n => (m.lookup n)

/-- The value returned by `Scorer.batchScore`: the per-dimension map
and the weighted score.  There is no round-level error field and the
weighted score is always computed. -/
structure BatchScoreOutput where
  overallScores : List (String × ScoreRecord)
  weightedScore : ℚ
deriving DecidableEq, Repr

/-- `Scorer.batchScore` (the scoring content; console output, delays
and the per-result copies of the same overall scores are omitted). -/
def batchScore (dims : List Dimension)
    (scoreDim : String → Except (List Char) ScoreRecord) : BatchScoreOutput :=
  let m := dimensionScoresList dims scoreDim
  ⟨m, calculateWeightedScore dims (lookupScores m)⟩

/-- One round entry as pushed by `evaluateEngineResults`: either the
spread of a successful `batchScore` result (`error` absent and
`weightedScore` present) or the catch-branch object `{round, error}`
(`weightedScore` absent). -/
structure RoundScore where
  error : Option (List Char)
  weightedScore : Option ℚ
deriving DecidableEq, Repr

/-- Round entry for a `batchScore` call that returned. -/
def roundOf (out : BatchScoreOutput) : RoundScore :=
  ⟨none, some out.weightedScore⟩

/-- Round entry for a `batchScore` call that threw. -/
def thrownRound (msg : List Char) : RoundScore :=
  ⟨some msg, none⟩

/-- The valid-round test of `calculateAverageScoresFromRepeats`:
`!round.error && round.weightedScore !== undefined`. -/
def isValidRound (r : RoundScore) : Bool :=
  r.error.isNone && r.weightedScore.isSome

/-- `validRounds` of `calculateAverageScoresFromRepeats`. -/
def validRoundsOf (rs : List RoundScore) : List RoundScore :=
  rs.filter isValidRound

/-- `errorRounds = totalRounds - validRounds.length`. -/
def errorRoundsOf (rs : List RoundScore) : ℕ :=
  rs.length - (validRoundsOf rs).length

/-- The averaged weighted score across valid rounds. -/
def weightedAverageOf (rs : List RoundScore) : ℚ :=
  (((validRoundsOf rs).map (fun r => r.weightedScore.getD 0)).sum)
    / ((validRoundsOf rs).length : ℚ)

/-- Lookup on the per-dimension map built by `batchScore`. -/
theorem lookup_dimensionScoresList (dims : List Dimension)
    (scoreDim : String → Except (List Char) ScoreRecord) (n : String) :
    (dimensionScoresList dims scoreDim).lookup n
      = if n ∈ dims.map Dimension.name
        then some (match scoreDim n with
                   | .ok r => r
                   | .error msg => judgeErrorRecord n msg)
        else none := by
  induction dims with
  | nil => simp [dimensionScoresList]
  | cons d ds ih =>
      have hstep : dimensionScoresList (d :: ds) scoreDim
          = (d.name,
              match scoreDim d.name with
              | .ok r => r
              | .error msg => judgeErrorRecord d.name msg)
            :: dimensionScoresList ds scoreDim := rfl
      by_cases h : n = d.name
      · subst h
        rw [hstep]
        simp [List.lookup]
      · have hbeq : (n == d.name) = false := by simpa using h
        rw [hstep]
        simp only [List.lookup, hbeq, ih, List.map_cons]
        simp [h]

/-- The weighted score of a `batchScore` round ignores dimensions whose
record is errored: restricting the dimension list to any sublist
containing all the non-errored names leaves the combiner unchanged.
Stated here for removing one name `D`. -/
theorem calculateWeightedScore_filter_errored (dims : List Dimension)
    (scores : String → Option ScoreRecord) (D : String)
    (hD : recordOk (scores D) = false) :
    calculateWeightedScore dims scores
      = calculateWeightedScore (dims.filter (fun d => d.name ≠ D)) scores := by
  rw [calculateWeightedScore_eq, calculateWeightedScore_eq]
  have hdims : specValidDims (dims.filter (fun d => d.name ≠ D)) scores
      = specValidDims dims scores := by
    unfold specValidDims
    rw [List.filter_filter]
    apply List.filter_congr
    intro d _
    by_cases h : d.name = D
    · subst h
      simp [hD]
    · simp [h]
  unfold specValidSum specValidWeight
  rw [hdims]

/-- C3: if the judge fails every call for dimension `D` but succeeds
(with non-error records) for all other dimensions, `batchScore` stores
the error ScoreRecord (score `0`, `error: true`) for `D` only, keeps
the successful records for every other dimension, computes the round's
`weightedScore` as the combiner result over the remaining dimensions
(so `D` is excluded from the weighted-score denominator), and appending
the resulting round to a provider's round list leaves the `errorRounds`
count unchanged. -/
theorem c3_partial_failure_isolated :
    ∀ (dims : List Dimension) (scoreDim : String → Except (List Char) ScoreRecord)
      (D : String) (msg : List Char) (rs : List RoundScore),
      D ∈ dims.map Dimension.name →
      scoreDim D = .error msg →
      (∀ d ∈ dims, d.name ≠ D → ∃ r, scoreDim d.name = .ok r ∧ r.error = false) →
      ((batchScore dims scoreDim).overallScores.lookup D
          = some (judgeErrorRecord D msg)
        ∧ (judgeErrorRecord D msg).score = 0
        ∧ (judgeErrorRecord D msg).error = true)
      ∧ (∀ d ∈ dims, d.name ≠ D →
          (batchScore dims scoreDim).overallScores.lookup d.name
            = (scoreDim d.name).toOption)
      ∧ (batchScore dims scoreDim).weightedScore
          = calculateWeightedScore (dims.filter (fun d => d.name ≠ D))
              (lookupScores (batchScore dims scoreDim).overallScores)
      ∧ errorRoundsOf (rs ++ [roundOf (batchScore dims scoreDim)])
          = errorRoundsOf rs := by
  intro dims scoreDim D msg rs hmem hfail hok
  have hlook : ∀ n, (batchScore dims scoreDim).overallScores.lookup n
      = if n ∈ dims.map Dimension.name
        then some (match scoreDim n with
                   | .ok r => r
                   | .error m => judgeErrorRecord n m)
        else none := by
    intro n
    exact lookup_dimensionScoresList dims scoreDim n
  refine ⟨⟨?_, rfl, rfl⟩, ?_, ?_, ?_⟩
  · rw [hlook D, if_pos hmem, hfail]
  · intro d hd hne
    obtain ⟨r, hr, _⟩ := hok d hd hne
    rw [hlook d.name, if_pos (List.mem_map_of_mem Dimension.name hd), hr]
    simp [hr, Except.toOption]
  · have hD : recordOk (lookupScores (batchScore dims scoreDim).overallScores D) = false := by
      unfold lookupScores
      rw [hlook D, if_pos hmem, hfail]
      simp [recordOk, judgeErrorRecord]
    calc (batchScore dims scoreDim).weightedScore
        = calculateWeightedScore dims
            (lookupScores (batchScore dims scoreDim).overallScores) := rfl
      _ = calculateWeightedScore (dims.filter (fun d => d.name ≠ D))
            (lookupScores (batchScore dims scoreDim).overallScores) :=
          calculateWeightedScore_filter_errored _ _ _ hD
  · unfold errorRoundsOf validRoundsOf
    rw [List.filter_append]
    simp [isValidRound, roundOf]

/-- C3 witness: two-dimension round where the judge fails only on
`"auth"`; `c3_partial_failure_isolated` applied at this input. -/
theorem c3_partial_failure_isolated_witness :
    (batchScore [⟨"rel", 1/2⟩, ⟨"auth", 1/2⟩]
        (fun n => if n = "auth" then .error ("boom".data) else .ok ⟨2, [], n, false⟩)
      ).overallScores.lookup "auth" = some (judgeErrorRecord "auth" ("boom".data))
  ∧ (batchScore [⟨"rel", 1/2⟩, ⟨"auth", 1/2⟩]
        (fun n => if n = "auth" then .error ("boom".data) else .ok ⟨2, [], n, false⟩)
      ).weightedScore
      = calculateWeightedScore
          ([⟨"rel", 1/2⟩, ⟨"auth", 1/2⟩].filter (fun d => d.name ≠ "auth"))
          (lookupScores (batchScore [⟨"rel", 1/2⟩, ⟨"auth", 1/2⟩]
            (fun n => if n = "auth" then .error ("boom".data) else .ok ⟨2, [], n, false⟩)
          ).overallScores)
  ∧ errorRoundsOf
      ([] ++ [roundOf (batchScore [⟨"rel", 1/2⟩, ⟨"auth", 1/2⟩]
        (fun n => if n = "auth" then .error ("boom".data) else .ok ⟨2, [], n, false⟩))])
      = errorRoundsOf [] := by
  have h := c3_partial_failure_isolated
    [⟨"rel", 1/2⟩, ⟨"auth", 1/2⟩]
    (fun n => if n = "auth" then .error ("boom".data) else .ok ⟨2, [], n, false⟩)
    "auth" ("boom".data) []
    (by decide)
    (by simp)
    (by
      intro d hd hne
      fin_cases hd
      · exact ⟨⟨2, [], "rel", false⟩, by simp, rfl⟩
      · exact absurd rfl hne)
  exact ⟨h.1.1, h.2.2.1, h.2.2.2⟩

/-- The combiner returns `0` whenever every dimension's record is
missing or errored. -/
theorem calculateWeightedScore_all_error (dims : List Dimension)
    (scores : String → Option ScoreRecord)
    (h : ∀ d ∈ dims, recordOk (scores d.name) = false) :
    calculateWeightedScore dims scores = 0 := by
  have hd : specValidDims dims scores = [] := by
    apply List.filter_eq_nil_iff.mpr
    intro d hdmem
    simp [h d hdmem]
  rw [calculateWeightedScore_eq]
  simp [specValidSum, specValidWeight, hd]

/-- C10: a `batchScore` call that returns always yields a round with a
defined numeric `weightedScore` and no round-level error field; when
every dimension's record is errored the round's `weightedScore` is
exactly `0`; appending such a round to a provider's round list grows
`validRounds` by one and leaves `errorRounds` unchanged, with the `0`
entering the averaged weighted score's sample, while `errorRounds`
increments exactly when the whole `batchScore` call throws. -/
theorem c10_all_error_round_counts_valid :
    ∀ (dims : List Dimension) (scoreDim : String → Except (List Char) ScoreRecord)
      (rs : List RoundScore) (msg : List Char),
      ((roundOf (batchScore dims scoreDim)).error = none
        ∧ (roundOf (batchScore dims scoreDim)).weightedScore
            = some (batchScore dims scoreDim).weightedScore)
      ∧ ((∀ d ∈ dims, ∀ r, scoreDim d.name = .ok r → r.error = true) →
          (batchScore dims scoreDim).weightedScore = 0)
      ∧ (validRoundsOf (rs ++ [roundOf (batchScore dims scoreDim)])).length
          = (validRoundsOf rs).length + 1
      ∧ errorRoundsOf (rs ++ [roundOf (batchScore dims scoreDim)]) = errorRoundsOf rs
      ∧ ((∀ d ∈ dims, ∀ r, scoreDim d.name = .ok r → r.error = true) →
          weightedAverageOf (rs ++ [roundOf (batchScore dims scoreDim)])
            = (((validRoundsOf rs).map (fun r => r.weightedScore.getD 0)).sum + 0)
              / (((validRoundsOf rs).length : ℚ) + 1))
      ∧ errorRoundsOf (rs ++ [thrownRound msg]) = errorRoundsOf rs + 1 := by
  intro dims scoreDim rs msg
  have hzero : (∀ d ∈ dims, ∀ r, scoreDim d.name = .ok r → r.error = true) →
      (batchScore dims scoreDim).weightedScore = 0 := by
    intro h
    apply calculateWeightedScore_all_error
    intro d hd
    unfold lookupScores
    rw [lookup_dimensionScoresList]
    rw [if_pos (List.mem_map_of_mem Dimension.name hd)]
    cases hsd : scoreDim d.name with
    | ok r => simp [recordOk, h d hd r hsd]
    | error m => simp [recordOk, judgeErrorRecord]
  have hvalid : validRoundsOf (rs ++ [roundOf (batchScore dims scoreDim)])
      = validRoundsOf rs ++ [roundOf (batchScore dims scoreDim)] := by
    unfold validRoundsOf
    rw [List.filter_append]
    simp [isValidRound, roundOf]
  refine ⟨⟨rfl, rfl⟩, hzero, ?_, ?_, ?_, ?_⟩
  · rw [hvalid]
    simp
  · unfold errorRoundsOf
    rw [hvalid]
    simp
  · intro h
    unfold weightedAverageOf
    rw [hvalid]
    simp [roundOf, hzero h]
  · unfold errorRoundsOf validRoundsOf
    rw [List.filter_append]
    have hle := List.length_filter_le isValidRound rs
    simp only [List.filter, isValidRound, thrownRound]
    simp [isValidRound]
    omega

/-- C10 witness: a single-dimension round where the judge fails its only
call, appended to an empty round list, with
`c10_all_error_round_counts_valid` applied at that input. -/
theorem c10_all_error_round_counts_valid_witness :
    (batchScore [⟨"rel", 1⟩] (fun _ => .error ("x".data))).weightedScore = 0
  ∧ (validRoundsOf
        ([] ++ [roundOf (batchScore [⟨"rel", 1⟩] (fun _ => .error ("x".data)))])).length
      = (validRoundsOf []).length + 1
  ∧ weightedAverageOf
        ([] ++ [roundOf (batchScore [⟨"rel", 1⟩] (fun _ => .error ("x".data)))])
      = (((validRoundsOf []).map (fun r => r.weightedScore.getD 0)).sum + 0)
          / (((validRoundsOf []).length : ℚ) + 1)
  ∧ errorRoundsOf ([] ++ [thrownRound ("m".data)]) = errorRoundsOf [] + 1 := by
  have h := c10_all_error_round_counts_valid [⟨"rel", 1⟩] (fun _ => .error ("x".data))
    [] ("m".data)
  have hall : ∀ d ∈ [(⟨"rel", 1⟩ : Dimension)], ∀ r,
      (fun (_ : String) => (.error ("x".data) : Except (List Char) ScoreRecord)) d.name
        = .ok r → r.error = true := by
    intro d hd r hr
    simp at hr
  exact ⟨h.2.1 hall, h.2.2.1, h.2.2.2.2.1 hall, h.2.2.2.2.2⟩

/-! ## ConfigManager.validateConfig / loadConfig (part_002 lines 18-69) -/

/-- The configuration fields inspected by `validateConfig`:
`model.model_key` and `search_engines` presence, and
`evaluation.dimensions` (absent when `evaluation` or its `dimensions`
field is missing). -/
structure Config where
  modelKeyPresent : Bool
  searchEnginesPresent : Bool
  evaluationDimensions : Option (List Dimension)
deriving DecidableEq, Repr

/-- `ConfigManager.validateConfig`: the checks in source order, the
weight-sum tolerance check last (`Math.abs(totalWeight - 1.0) > 0.01`).
`Except.error` models the thrown error. -/
def validateConfig (c : Config) : Except String Unit :=
  if ¬ c.modelKeyPresent then .error "缺少模型API密钥配置"
  else if ¬ c.searchEnginesPresent then .error "缺少搜索引擎配置"
  else
    match c.evaluationDimensions with
    | none => .error "缺少评估维度配置"
    | some dims =>
        if 1 / 100 < |((dims.map Dimension.weight).sum) - 1|
        then .error "维度权重总和应为1.0"
        else .ok ()

/-- `ConfigManager.loadConfig` after a successful file read and JSON
parse: it validates and only then exposes the configuration, so an
invalid configuration never reaches evaluation. -/
def loadConfig (c : Config) : Except String Config :=
  (validateConfig c).map (fun _ => c)

/-- C6: a configuration whose dimension weights do not sum to `1.0`
within the `0.01` tolerance is rejected by validation at load time
(`loadConfig` yields an error, so no configuration reaches evaluation);
a weight sum within `1.0 ± 0.01` is not rejected on weights — with the
other required fields present, loading succeeds. -/
theorem c6_weight_sum_validated_at_load :
    (∀ (c : Config) (dims : List Dimension),
        c.evaluationDimensions = some dims →
        1 / 100 < |((dims.map Dimension.weight).sum) - 1| →
        (loadConfig c).isOk = false)
  ∧ (∀ (c : Config) (dims : List Dimension),
        c.modelKeyPresent = true →
        c.searchEnginesPresent = true →
        c.evaluationDimensions = some dims →
        |((dims.map Dimension.weight).sum) - 1| ≤ 1 / 100 →
        loadConfig c = .ok c) := by
  constructor
  · intro c dims hdims hsum
    unfold loadConfig validateConfig
    rw [hdims]
    by_cases h1 : c.modelKeyPresent = true
    · by_cases h2 : c.searchEnginesPresent = true
      · rw [if_neg (not_not_intro h1), if_neg (not_not_intro h2)]
        show (Except.map (fun _ => c)
          (if 1 / 100 < |((dims.map Dimension.weight).sum) - 1|
           then (Except.error "维度权重总和应为1.0" : Except String Unit)
           else Except.ok ())).isOk = false
        rw [if_pos hsum]
        rfl
      · rw [if_neg (not_not_intro h1), if_pos h2]
        rfl
    · rw [if_pos h1]
      rfl
  · intro c dims h1 h2 hdims hsum
    unfold loadConfig validateConfig
    rw [hdims, if_neg (not_not_intro h1), if_neg (not_not_intro h2)]
    show (Except.map (fun _ => c)
      (if 1 / 100 < |((dims.map Dimension.weight).sum) - 1|
       then (Except.error "维度权重总和应为1.0" : Except String Unit)
       else Except.ok ())) = .ok c
    rw [if_neg (not_lt.mpr hsum)]
    rfl

/-- C6 witness: a weight list summing to `0.5` is rejected at load; the
same configuration with weights summing to `1.0` loads. -/
theorem c6_weight_sum_validated_at_load_witness :
    (loadConfig ⟨true, true, some [⟨"rel", 1/2⟩]⟩).isOk = false
  ∧ loadConfig ⟨true, true, some [⟨"rel", 1/2⟩, ⟨"auth", 1/2⟩]⟩
      = .ok ⟨true, true, some [⟨"rel", 1/2⟩, ⟨"auth", 1/2⟩]⟩ := by
  constructor
  · exact c6_weight_sum_validated_at_load.1 _ [⟨"rel", 1/2⟩] rfl (by norm_num [lt_abs])
  · exact c6_weight_sum_validated_at_load.2 _ [⟨"rel", 1/2⟩, ⟨"auth", 1/2⟩]
      rfl rfl rfl (by norm_num [abs_le])

/-! ## BatchTestManager.aggregateResults (lines 179-256): per-provider
score collection and the population statistics. -/

/-- The two scoring systems iterated by the aggregator. -/
inductive ScoringType where
  | binary : ScoringType
  | five_point : ScoringType
deriving DecidableEq, Repr

/-- Per-engine data inside one evaluated cell:
`engineData.error` and `engineData.averageScores?.[t]?.weighted`. -/
structure EngineRoundData where
  error : Option String
  binaryWeighted : Option ℚ
  fivePointWeighted : Option ℚ
deriving DecidableEq, Repr

/-- `engineData.averageScores?.[scoringType]?.weighted`. -/
def weightedOf (t : ScoringType) (e : EngineRoundData) : Option ℚ :=
  match t with
  | .binary => e.binaryWeighted
  | .five_point => e.fivePointWeighted

/-- One `(round, query)` cell of the batch: the query-level `error`
field and the per-engine map. -/
structure CellResult where
  error : Option String
  engines : List (String × EngineRoundData)
deriving DecidableEq, Repr

/-- The per-engine observations encountered by the aggregation loops,
in iteration order (rounds, then results, then engine entries; cells
with a query-level error are skipped). -/
def engineCells (testResults : List (List CellResult)) (engine : String) :
    List EngineRoundData :=
  ((testResults.map (fun cells =>
      ((cells.map (fun cell =>
          if cell.error.isSome then []
          else (cell.engines.filter (fun p => p.1 = engine)).map Prod.snd)).flatten))).flatten)

/-- `engineStats[engine].total_tests`. -/
def totalTestsOf (testResults : List (List CellResult)) (engine : String) : ℕ :=
  (engineCells testResults engine).length

/-- `engineStats[engine].successful_tests`. -/
def successfulTestsOf (testResults : List (List CellResult)) (engine : String) : ℕ :=
  ((engineCells testResults engine).filter (fun e => e.error.isNone)).length

/-- `success_rate = successful_tests / total_tests`. -/
def successRateOf (testResults : List (List CellResult)) (engine : String) : ℚ :=
  (successfulTestsOf testResults engine : ℚ) / (totalTestsOf testResults engine : ℚ)

/-- The flat sample: every successfully-computed weighted score pushed
for this engine and scoring system, across all cells. -/
def collectScores (testResults : List (List CellResult)) (engine : String)
    (t : ScoringType) : List ℚ :=
  ((engineCells testResults engine).filter (fun e => e.error.isNone)).filterMap
    (weightedOf t)

/-- The statistics stored in `average_scores[t]`, with the population
variance kept exactly; `std_dev`/`coefficient_of_variation` are the
real-valued `stdDevOf`/`covOf` below. -/
structure ScaleStats where
  mean : ℚ
  min : ℚ
  max : ℚ
  variance : ℚ
  count : ℕ
deriving DecidableEq, Repr

/-- `Math.min(...scores)` on a non-empty sample. -/
def listMin : List ℚ → ℚ
  | [] => 0
  | x :: xs => xs.foldl Min.min x

/-- `Math.max(...scores)` on a non-empty sample. -/
def listMax : List ℚ → ℚ
  | [] => 0
  | x :: xs => xs.foldl Max.max x

/-- `mean`, `min`, `max` and the population `variance` of the sample,
exactly as computed by `aggregateResults`. -/
def statsOf (scores : List ℚ) : ScaleStats :=
  let mean := scores.sum / (scores.length : ℚ)
  ⟨mean, listMin scores, listMax scores,
   ((scores.map (fun x => (x - mean) ^ 2)).sum) / (scores.length : ℚ),
   scores.length⟩

/-- `std_dev = Math.sqrt(variance)`. -/
noncomputable def stdDevOf (st : ScaleStats) : ℝ :=
  Real.sqrt (st.variance : ℝ)

/-- `coefficient_of_variation = mean > 0 ? Math.sqrt(variance) / mean : 0`. -/
noncomputable def covOf (st : ScaleStats) : ℝ :=
  if 0 < st.mean then stdDevOf st / (st.mean : ℝ) else 0

/-- `enginePerformance[engine]`: success rate and, for each scoring
system with a non-empty sample, the statistics of that sample. -/
structure EnginePerformance where
  successRate : ℚ
  binaryStats : Option ScaleStats
  fivePointStats : Option ScaleStats
deriving DecidableEq, Repr

/-- `average_scores[t]` of `enginePerformance[engine]`. -/
def scaleStatsFor (testResults : List (List CellResult)) (engine : String)
    (t : ScoringType) : Option ScaleStats :=
  if collectScores testResults engine t = [] then none
  else some (statsOf (collectScores testResults engine t))

/-- The per-engine entry of `aggregateResults().engine_performance`. -/
def enginePerformanceOf (testResults : List (List CellResult)) (engine : String) :
    EnginePerformance :=
  ⟨successRateOf testResults engine,
   scaleStatsFor testResults engine .binary,
   scaleStatsFor testResults engine .five_point⟩

/-- A sample of identical values has mean equal to that value and zero
population variance. -/
theorem statsOf_const (scores : List ℚ) (c : ℚ) (hne : scores ≠ [])
    (h : ∀ x ∈ scores, x = c) :
    (statsOf scores).mean = c ∧ (statsOf scores).variance = 0 := by
  have hlen : (scores.length : ℚ) ≠ 0 := by
    simpa [Nat.cast_ne_zero] using List.length_pos.mpr hne |>.ne'
  have hsum : scores.sum = (scores.length : ℚ) * c := by
    rw [List.sum_eq_card_nsmul scores c h, nsmul_eq_mul]
  have hmean : (statsOf scores).mean = c := by
    show scores.sum / (scores.length : ℚ) = c
    rw [hsum, mul_div_cancel_left₀ _ hlen]
  refine ⟨hmean, ?_⟩
  show ((scores.map (fun x => (x - scores.sum / (scores.length : ℚ)) ^ 2)).sum)
      / (scores.length : ℚ) = 0
  have hz : (scores.map (fun x => (x - scores.sum / (scores.length : ℚ)) ^ 2)).sum = 0 := by
    apply List.sum_eq_zero
    intro y hy
    obtain ⟨x, hx, rfl⟩ := List.mem_map.mp hy
    have hxc : x = c := h x hx
    have hmc : scores.sum / (scores.length : ℚ) = c := hmean
    rw [hxc, hmc]
    ring
  rw [hz, zero_div]

/-- A sample of nonnegative values containing two distinct values has a
strictly positive mean and strictly positive population variance. -/
theorem statsOf_pos_of_distinct (scores : List ℚ)
    (hnn : ∀ x ∈ scores, 0 ≤ x)
    (hd : ∃ a ∈ scores, ∃ b ∈ scores, a ≠ b) :
    0 < (statsOf scores).mean ∧ 0 < (statsOf scores).variance := by
  obtain ⟨a, ha, b, hb, hab⟩ := hd
  have hne : scores ≠ [] := by
    rintro rfl
    simp at ha
  have hlenpos : 0 < (scores.length : ℚ) := by
    exact_mod_cast List.length_pos.mpr hne
  have hsumpos : 0 < scores.sum := by
    rcases (hnn a ha).lt_or_eq with hapos | haz
    · exact lt_of_lt_of_le hapos (List.single_le_sum hnn a ha)
    · have hbpos : 0 < b := by
        rcases (hnn b hb).lt_or_eq with hbpos | hbz
        · exact hbpos
        · exact absurd (haz.symm.trans hbz) hab
      exact lt_of_lt_of_le hbpos (List.single_le_sum hnn b hb)
  have hmean : 0 < (statsOf scores).mean := div_pos hsumpos hlenpos
  refine ⟨hmean, ?_⟩
  set m := scores.sum / (scores.length : ℚ) with hm
  have hx : ∃ x ∈ scores, x ≠ m := by
    by_cases ham : a = m
    · exact ⟨b, hb, fun hbm => hab (ham.trans hbm.symm)⟩
    · exact ⟨a, ha, ham⟩
  obtain ⟨x, hxmem, hxm⟩ := hx
  have hterm : 0 < (x - m) ^ 2 := sq_pos_of_ne_zero (sub_ne_zero.mpr hxm)
  have hsumvar : 0 < (scores.map (fun y => (y - m) ^ 2)).sum := by
    apply lt_of_lt_of_le hterm
    apply List.single_le_sum
    · intro y hy
      obtain ⟨z, _, rfl⟩ := List.mem_map.mp hy
      positivity
    · exact List.mem_map_of_mem _ hxmem
  exact div_pos hsumvar hlenpos

/-- The fold computing `Math.min(...)` yields an element of the sample
that bounds it from below (and dually for `Math.max`). -/
theorem foldl_min_spec (a : ℚ) (l : List ℚ) :
    (l.foldl Min.min a ∈ a :: l) ∧ (l.foldl Min.min a ≤ a)
      ∧ (∀ x ∈ l, l.foldl Min.min a ≤ x) := by
  induction l generalizing a with
  | nil => simp
  | cons y ys ih =>
      obtain ⟨hmem, hle, hall⟩ := ih (Min.min a y)
      have hfold : (y :: ys).foldl Min.min a = ys.foldl Min.min (Min.min a y) := rfl
      refine ⟨?_, ?_, ?_⟩
      · rw [hfold]
        rcases List.mem_cons.mp hmem with h | h
        · rw [h]
          rcases min_cases a y with ⟨he, _⟩ | ⟨he, _⟩
          · rw [he]
            exact List.mem_cons_self _ _
          · rw [he]
            exact List.mem_cons_of_mem _ (List.mem_cons_self _ _)
        · exact List.mem_cons_of_mem _ (List.mem_cons_of_mem _ h)
      · rw [hfold]
        exact le_trans hle (min_le_left _ _)
      · intro x hx
        rw [hfold]
        rcases List.mem_cons.mp hx with rfl | hx
        · exact le_trans hle (min_le_right _ _)
        · exact hall x hx

/-- Dual of `foldl_min_spec` for `Math.max(...)`. -/
theorem foldl_max_spec (a : ℚ) (l : List ℚ) :
    (l.foldl Max.max a ∈ a :: l) ∧ (a ≤ l.foldl Max.max a)
      ∧ (∀ x ∈ l, x ≤ l.foldl Max.max a) := by
  induction l generalizing a with
  | nil => simp
  | cons y ys ih =>
      obtain ⟨hmem, hle, hall⟩ := ih (Max.max a y)
      have hfold : (y :: ys).foldl Max.max a = ys.foldl Max.max (Max.max a y) := rfl
      refine ⟨?_, ?_, ?_⟩
      · rw [hfold]
        rcases List.mem_cons.mp hmem with h | h
        · rw [h]
          rcases max_cases a y with ⟨he, _⟩ | ⟨he, _⟩
          · rw [he]
            exact List.mem_cons_self _ _
          · rw [he]
            exact List.mem_cons_of_mem _ (List.mem_cons_self _ _)
        · exact List.mem_cons_of_mem _ (List.mem_cons_of_mem _ h)
      · rw [hfold]
        exact le_trans (le_max_left _ _) hle
      · intro x hx
        rw [hfold]
        rcases List.mem_cons.mp hx with rfl | hx
        · exact le_trans (le_max_right _ _) hle
        · exact hall x hx

/-- `Math.min(...scores)` is the least element of a non-empty sample;
`Math.max(...scores)` the greatest. -/
theorem listMin_listMax_spec (scores : List ℚ) (hne : scores ≠ []) :
    (listMin scores ∈ scores ∧ ∀ x ∈ scores, listMin scores ≤ x)
      ∧ (listMax scores ∈ scores ∧ ∀ x ∈ scores, x ≤ listMax scores) := by
  cases scores with
  | nil => exact absurd rfl hne
  | cons y ys =>
      obtain ⟨hmem, hley, hall⟩ := foldl_min_spec y ys
      obtain ⟨hmem2, hley2, hall2⟩ := foldl_max_spec y ys
      refine ⟨⟨hmem, ?_⟩, ⟨hmem2, ?_⟩⟩
      · intro x hx
        rcases List.mem_cons.mp hx with rfl | hx
        · exact hley
        · exact hall x hx
      · intro x hx
        rcases List.mem_cons.mp hx with rfl | hx
        · exact hley2
        · exact hall2 x hx

/-- C4: per provider the batch aggregation collects every
successfully-computed weighted score into a flat sample and computes
the statistics of that sample: `mean = sum/length`, `min`/`max` the
least/greatest sample value, `stdDev` by the population formula
`sqrt(mean((x-mean)^2))`, and
`coefficientOfVariation = stdDev/mean` with `0` when the mean is `0`
(for the nonnegative samples the pipeline produces); a sample of
identical scores has `coefficientOfVariation` exactly `0`, and a
nonnegative sample with two distinct values has `stdDev` and
`coefficientOfVariation` strictly greater than `0`. -/
theorem c4_aggregate_statistics :
    (∀ (tr : List (List CellResult)) (e : String) (t : ScoringType),
        collectScores tr e t ≠ [] →
        scaleStatsFor tr e t = some (statsOf (collectScores tr e t)))
  ∧ (∀ scores : List ℚ,
        (statsOf scores).mean = scores.sum / (scores.length : ℚ)
          ∧ stdDevOf (statsOf scores)
              = Real.sqrt
                  ((((scores.map
                        (fun x => (x - scores.sum / (scores.length : ℚ)) ^ 2)).sum)
                      / (scores.length : ℚ) : ℚ)))
  ∧ (∀ scores : List ℚ, scores ≠ [] →
        ((statsOf scores).min ∈ scores ∧ ∀ x ∈ scores, (statsOf scores).min ≤ x)
          ∧ ((statsOf scores).max ∈ scores ∧ ∀ x ∈ scores, x ≤ (statsOf scores).max))
  ∧ (∀ scores : List ℚ,
        0 ≤ (statsOf scores).mean →
        covOf (statsOf scores)
          = if (statsOf scores).mean = 0 then 0
            else stdDevOf (statsOf scores) / ((statsOf scores).mean : ℝ))
  ∧ (∀ (scores : List ℚ) (c : ℚ), scores ≠ [] → (∀ x ∈ scores, x = c) →
        stdDevOf (statsOf scores) = 0 ∧ covOf (statsOf scores) = 0)
  ∧ (∀ scores : List ℚ, (∀ x ∈ scores, 0 ≤ x) →
        (∃ a ∈ scores, ∃ b ∈ scores, a ≠ b) →
        0 < stdDevOf (statsOf scores) ∧ 0 < covOf (statsOf scores)) := by
  refine ⟨?_, ?_, ?_, ?_, ?_, ?_⟩
  · intro tr e t h
    unfold scaleStatsFor
    rw [if_neg h]
  · intro scores
    exact ⟨rfl, rfl⟩
  · intro scores hne
    exact listMin_listMax_spec scores hne
  · intro scores hnn
    unfold covOf
    rcases hnn.lt_or_eq with hpos | hzero
    · rw [if_pos hpos, if_neg hpos.ne']
    · rw [if_neg (by rw [← hzero]; exact lt_irrefl _), if_pos hzero.symm]
  · intro scores c hne h
    obtain ⟨_, hvar⟩ := statsOf_const scores c hne h
    have hsd : stdDevOf (statsOf scores) = 0 := by
      unfold stdDevOf
      rw [hvar]
      simp
    refine ⟨hsd, ?_⟩
    unfold covOf
    split
    · rw [hsd, zero_div]
    · rfl
  · intro scores hnn hd
    obtain ⟨hmean, hvar⟩ := statsOf_pos_of_distinct scores hnn hd
    have hsd : 0 < stdDevOf (statsOf scores) := by
      unfold stdDevOf
      exact Real.sqrt_pos.mpr (by exact_mod_cast hvar)
    refine ⟨hsd, ?_⟩
    unfold covOf
    rw [if_pos hmean]
    exact div_pos hsd (by exact_mod_cast hmean)

/-- C4 witness: a provider with weighted scores `[4,4,4]` across three
rounds has `coefficientOfVariation` exactly `0`; a provider with
weighted scores `[2,4,5]` has strictly positive `stdDev` and
`coefficientOfVariation`; `c4_aggregate_statistics` applied at these
inputs. -/
theorem c4_aggregate_statistics_witness :
    scaleStatsFor
        [[⟨none, [("A", ⟨none, none, some 4⟩)]⟩],
         [⟨none, [("A", ⟨none, none, some 4⟩)]⟩],
         [⟨none, [("A", ⟨none, none, some 4⟩)]⟩]] "A" .five_point
      = some (statsOf (collectScores
          [[⟨none, [("A", ⟨none, none, some 4⟩)]⟩],
           [⟨none, [("A", ⟨none, none, some 4⟩)]⟩],
           [⟨none, [("A", ⟨none, none, some 4⟩)]⟩]] "A" .five_point))
  ∧ covOf (statsOf (collectScores
        [[⟨none, [("A", ⟨none, none, some 4⟩)]⟩],
         [⟨none, [("A", ⟨none, none, some 4⟩)]⟩],
         [⟨none, [("A", ⟨none, none, some 4⟩)]⟩]] "A" .five_point)) = 0
  ∧ 0 < stdDevOf (statsOf (collectScores
        [[⟨none, [("A", ⟨none, none, some 2⟩)]⟩],
         [⟨none, [("A", ⟨none, none, some 4⟩)]⟩],
         [⟨none, [("A", ⟨none, none, some 5⟩)]⟩]] "A" .five_point))
  ∧ 0 < covOf (statsOf (collectScores
        [[⟨none, [("A", ⟨none, none, some 2⟩)]⟩],
         [⟨none, [("A", ⟨none, none, some 4⟩)]⟩],
         [⟨none, [("A", ⟨none, none, some 5⟩)]⟩]] "A" .five_point))
  ∧ (statsOf (collectScores
        [[⟨none, [("A", ⟨none, none, some 2⟩)]⟩],
         [⟨none, [("A", ⟨none, none, some 4⟩)]⟩],
         [⟨none, [("A", ⟨none, none, some 5⟩)]⟩]] "A" .five_point)).min
      ∈ collectScores
        [[⟨none, [("A", ⟨none, none, some 2⟩)]⟩],
         [⟨none, [("A", ⟨none, none, some 4⟩)]⟩],
         [⟨none, [("A", ⟨none, none, some 5⟩)]⟩]] "A" .five_point := by
  refine ⟨?_, ?_, ?_, ?_, ?_⟩
  · exact c4_aggregate_statistics.1 _ "A" .five_point (by decide)
  · exact (c4_aggregate_statistics.2.2.2.2.1 _ (4 : ℚ) (by decide) (by decide)).2
  · exact (c4_aggregate_statistics.2.2.2.2.2 _ (by decide) (by decide)).1
  · exact (c4_aggregate_statistics.2.2.2.2.2 _ (by decide) (by decide)).2
  · exact ((c4_aggregate_statistics.2.2.1 _ (by decide)).1).1

/-! ## Rankings: JS `Array.prototype.sort` with comparator
`(a, b) => b.score - a.score` is (since ES2019) the unique stable
descending sort; the embedding uses insertion sort, which computes
exactly that list. -/

/-- Stable descending sort by a rational key. -/
def sortByScoreDesc (key : α → ℚ) (l : List α) : List α :=
  List.insertionSort (fun a b => key b ≤ key a) l

/-- The sort is a permutation of its input. -/
theorem sortByScoreDesc_perm (key : α → ℚ) (l : List α) :
    (sortByScoreDesc key l).Perm l :=
  List.perm_insertionSort _ l

/-- The sort is descending in the key. -/
theorem sortByScoreDesc_sorted (key : α → ℚ) (l : List α) :
    (sortByScoreDesc key l).Pairwise (fun a b => key b ≤ key a) := by
  haveI : IsTotal α (fun a b => key b ≤ key a) := ⟨fun a b => le_total (key b) (key a)⟩
  haveI : IsTrans α (fun a b => key b ≤ key a) := ⟨fun _ _ _ h1 h2 => le_trans h2 h1⟩
  exact List.sorted_insertionSort _ l

/-- Inserting into the sort keeps each key-class's elements in order:
the inserted element lands in front of its own class (it is the
earliest-iterated element among those processed so far). -/
theorem orderedInsert_filter_key (key : α → ℚ) (q : ℚ) (x : α) (l : List α) :
    (List.orderedInsert (fun a b => key b ≤ key a) x l).filter (fun a => key a = q)
      = ((if key x = q then [x] else []) ++ l.filter (fun a => key a = q)) := by
  induction l with
  | nil =>
      by_cases hx : key x = q
      · simp [List.orderedInsert, List.filter_cons, hx]
      · simp [List.orderedInsert, List.filter_cons, hx]
  | cons y ys ih =>
      by_cases hr : key y ≤ key x
      · simp only [List.orderedInsert, if_pos hr, List.filter_cons]
        by_cases hx : key x = q
        · simp [hx]
        · simp [hx]
      · simp only [List.orderedInsert, if_neg hr, List.filter_cons]
        by_cases hy : key y = q
        · by_cases hx : key x = q
          · exact absurd (hx.trans hy.symm) (fun he => hr (le_of_eq (he ▸ rfl)))
          · simp [hx, hy, ih]
        · simp [hy, ih]

/-- Stability of the sort: for every key value `q`, the `q`-class of
the sorted list is the `q`-class of the input, in input order. -/
theorem sortByScoreDesc_filter_key (key : α → ℚ) (q : ℚ) (l : List α) :
    (sortByScoreDesc key l).filter (fun a => key a = q)
      = l.filter (fun a => key a = q) := by
  induction l with
  | nil => rfl
  | cons x xs ih =>
      show (List.orderedInsert _ x (List.insertionSort _ xs)).filter _ = _
      rw [orderedInsert_filter_key]
      rw [show (List.insertionSort (fun a b => key b ≤ key a) xs).filter
            (fun a => key a = q) = xs.filter (fun a => key a = q) from ih]
      by_cases hx : key x = q
      · simp [List.filter_cons, hx]
      · simp [List.filter_cons, hx]

/-- `list.map((item, index) => ({rank: index + 1, ...item}))`: pair each
element with its 1-based position. -/
def rankFrom (i : ℕ) : List α → List (ℕ × α)
  | [] => []
  | x :: xs => (i, x) :: rankFrom (i + 1) xs

/-- Length of the rank-paired list. -/
theorem rankFrom_length (i : ℕ) (l : List α) : (rankFrom i l).length = l.length := by
  induction l generalizing i with
  | nil => rfl
  | cons x xs ih => simp [rankFrom, ih]

/-- Ranks are consecutive from the starting index. -/
theorem rankFrom_get_fst (i : ℕ) (l : List α) (j : ℕ)
    (h : j < (rankFrom i l).length) :
    ((rankFrom i l).get ⟨j, h⟩).1 = i + j := by
  induction l generalizing i j with
  | nil => simp [rankFrom] at h
  | cons x xs ih =>
      cases j with
      | zero => simp [rankFrom]
      | succ j =>
          have h' : j < (rankFrom (i + 1) xs).length := by
            simpa [rankFrom] using h
          show ((rankFrom (i + 1) xs).get ⟨j, h'⟩).1 = i + (j + 1)
          rw [ih (i + 1) j h']
          omega

/-- The payloads of the rank-paired list are the original list. -/
theorem rankFrom_get_snd (i : ℕ) (l : List α) (j : ℕ)
    (h : j < (rankFrom i l).length)
    (h2 : j < l.length) :
    ((rankFrom i l).get ⟨j, h⟩).2 = l.get ⟨j, h2⟩ := by
  induction l generalizing i j with
  | nil => simp [rankFrom] at h
  | cons x xs ih =>
      cases j with
      | zero => simp [rankFrom]
      | succ j =>
          have h' : j < (rankFrom (i + 1) xs).length := by
            simpa [rankFrom] using h
          show ((rankFrom (i + 1) xs).get ⟨j, h'⟩).2 = _
          rw [ih (i + 1) j h' (by simpa using h2)]
          rfl

/-- Filtering the rank-paired list on a payload property and dropping
the ranks is filtering the payloads. -/
theorem rankFrom_filter_map_snd {γ : Type _} (pl : α → γ) (P : α → Bool)
    (i : ℕ) (l : List α) :
    (((rankFrom i l).filter (fun p => P p.2)).map (fun p => pl p.2))
      = (l.filter P).map pl := by
  induction l generalizing i with
  | nil => rfl
  | cons x xs ih =>
      cases hP : P x with
      | true => simp [rankFrom, List.filter_cons, hP, ih]
      | false => simp [rankFrom, List.filter_cons, hP, ih]

/-! ## EvaluationManager.generateSummary rankings (Scorer.js 1092-1139)
and BatchTestManager.generateEngineRankings (lines 263-312). -/

/-- A per-scale ranking entry of the single-query summary:
`{rank, engine, score}`. -/
structure SummaryRankEntry where
  rank : ℕ
  engine : String
  score : ℚ
deriving DecidableEq, Repr

/-- The `engineScores[scoringType]` collection of `generateSummary`:
engines without an error whose `averageScores[t].weighted` is defined
(the `!isNaN` guard never fires over exact rationals), in iteration
order. -/
def summaryEngineScores (engineResults : List (String × EngineRoundData))
    (t : ScoringType) : List (String × ℚ) :=
  engineResults.filterMap (fun p =>
    if p.2.error.isNone then (weightedOf t p.2).map (fun w => (p.1, w)) else none)

/-- `generateSummary(...).rankings[t]`: sort descending by score and
attach 1-based ranks. -/
def summaryRankings (engineResults : List (String × EngineRoundData))
    (t : ScoringType) : List SummaryRankEntry :=
  (rankFrom 1 (sortByScoreDesc Prod.snd (summaryEngineScores engineResults t))).map
    (fun p => ⟨p.1, p.2.1, p.2.2⟩)

/-- A per-scale ranking entry of the batch report:
`{rank, engine, score, stability, successRate}`. -/
structure ScaleRankEntry where
  rank : ℕ
  engine : String
  score : ℚ
  stability : ℝ
  successRate : ℚ

/-- `performance.average_scores[t]` as stored in `EnginePerformance`. -/
def statsForPerf (t : ScoringType) (p : EnginePerformance) : Option ScaleStats :=
  match t with
  | .binary => p.binaryStats
  | .five_point => p.fivePointStats

/-- The pre-sort entries of the batch per-scale ranking:
`score = average_scores[t]?.mean || 0` and
`stability = 1 - (score_stability[t]?.coefficient_of_variation || 1)`
(the JS `||` also replaces an exact `0` coefficient by `1`). -/
noncomputable def scaleRankingEntries (perf : List (String × EnginePerformance))
    (t : ScoringType) : List (String × ℚ × ℝ × ℚ) :=
  perf.map (fun p =>
    (p.1,
     ((statsForPerf t p.2).map ScaleStats.mean).getD 0,
     1 - (match statsForPerf t p.2 with
          | none => (1 : ℝ)
          | some st => if covOf st = 0 then 1 else covOf st),
     p.2.successRate))

/-- `generateEngineRankings(...)[t]`. -/
noncomputable def generateEngineRankingsScale
    (perf : List (String × EnginePerformance)) (t : ScoringType) :
    List ScaleRankEntry :=
  (rankFrom 1 (sortByScoreDesc (fun e => e.2.1) (scaleRankingEntries perf t))).map
    (fun p => ⟨p.1, p.2.1, p.2.2.1, p.2.2.2.1, p.2.2.2.2⟩)

/-- A combined-ranking entry: `{rank, engine, combined_score,
success_rate}`. -/
structure CombinedRankEntry where
  rank : ℕ
  engine : String
  combinedScore : ℚ
  successRate : ℚ
deriving DecidableEq, Repr

/-- The combined score of one provider:
```js
const binaryScore = performance.average_scores.binary?.mean || 0;
const fivePointScore = performance.average_scores.five_point?.mean || 0;
const normalizedBinary = binaryScore / 2;
const normalizedFivePoint = (fivePointScore - 1) / 4;
combined_score = (normalizedBinary + normalizedFivePoint) / 2;
```
(the missing-scale default `0` is applied before normalization). -/
def combinedScoreOf (p : EnginePerformance) : ℚ :=
  let binaryScore := ((p.binaryStats.map ScaleStats.mean).getD 0)
  let fivePointScore := ((p.fivePointStats.map ScaleStats.mean).getD 0)
  ((binaryScore / 2) + ((fivePointScore - 1) / 4)) / 2

/-- The pre-sort entries of the combined ranking. -/
def combinedEntries (perf : List (String × EnginePerformance)) :
    List (String × ℚ × ℚ) :=
  perf.map (fun p => (p.1, combinedScoreOf p.2, p.2.successRate))

/-- `generateEngineRankings(...).combined`. -/
def generateEngineRankingsCombined (perf : List (String × EnginePerformance)) :
    List CombinedRankEntry :=
  (rankFrom 1 (sortByScoreDesc (fun e => e.2.1) (combinedEntries perf))).map
    (fun p => ⟨p.1, p.2.1, p.2.2.1, p.2.2.2⟩)

/-- Ranks attached by `rankFrom` are the consecutive integers. -/
theorem rankFrom_map_fst (i : ℕ) (l : List α) :
    (rankFrom i l).map Prod.fst = List.range' i l.length := by
  induction l generalizing i with
  | nil => rfl
  | cons x xs ih => simp [rankFrom, List.range'_succ, ih]

/-- Dropping ranks recovers the underlying list (composed with any
projection of the payload). -/
theorem rankFrom_map_comp {γ : Type _} (g : α → γ) (i : ℕ) (l : List α) :
    (rankFrom i l).map (fun p => g p.2) = l.map g := by
  induction l generalizing i with
  | nil => rfl
  | cons x xs ih => simp [rankFrom, ih]

/-- C5 counterexample: a provider with a binary mean of `2` and no
five-point sample.  The claim predicts a combined score of
`(2/2 + 0)/2 = 1/2`; the source defaults the missing five-point mean to
`0` before normalizing with `(score - 1)/4`, yielding
`(1 + (-1/4))/2 = 3/8`. -/
theorem c5_counterexample_missing_scale_contribution :
    combinedScoreOf ⟨1, some ⟨2, 2, 2, 0, 3⟩, none⟩ = 3 / 8
  ∧ (3 / 8 : ℚ) ≠ (2 / 2 + 0) / 2
  ∧ (generateEngineRankingsCombined [("A", ⟨1, some ⟨2, 2, 2, 0, 3⟩, none⟩)]).map
      CombinedRankEntry.combinedScore = [3 / 8] := by
  refine ⟨?_, by norm_num, ?_⟩
  · unfold combinedScoreOf
    norm_num
  · show ((rankFrom 1 (sortByScoreDesc (fun e => e.2.1)
        (combinedEntries [("A", ⟨1, some ⟨2, 2, 2, 0, 3⟩, none⟩)]))).map
          (fun p => (⟨p.1, p.2.1, p.2.2.1, p.2.2.2⟩ : CombinedRankEntry))).map
            CombinedRankEntry.combinedScore = [3 / 8]
    unfold combinedEntries combinedScoreOf sortByScoreDesc
    norm_num [List.insertionSort, List.orderedInsert, rankFrom]

/-- C5 (amended): the combined ranking first defaults a missing scale's
mean to `0` and then normalizes — binary via `score/2`, five-point via
`(score-1)/4` — and averages the two normalized values, ranking
descending by that average; consequently a provider missing the binary
mean contributes `0` for that scale, while one missing the five-point
mean contributes `(0-1)/4 = -1/4` rather than `0`; no provider is
excluded from the combined ranking. -/
theorem c5_combined_ranking_amended :
    (∀ p : EnginePerformance,
        combinedScoreOf p
          = (((p.binaryStats.map ScaleStats.mean).getD 0) / 2
              + ((((p.fivePointStats.map ScaleStats.mean).getD 0) - 1) / 4)) / 2)
  ∧ (∀ p : EnginePerformance, p.binaryStats = none →
        ((p.binaryStats.map ScaleStats.mean).getD 0) / 2 = 0)
  ∧ (∀ p : EnginePerformance, p.fivePointStats = none →
        ((((p.fivePointStats.map ScaleStats.mean).getD 0) - 1) / 4) = -(1 / 4))
  ∧ (∀ perf : List (String × EnginePerformance),
        ((generateEngineRankingsCombined perf).map
            (fun e => (e.engine, e.combinedScore))).Perm
          (perf.map (fun p => (p.1, combinedScoreOf p.2))))
  ∧ (∀ perf : List (String × EnginePerformance),
        ((generateEngineRankingsCombined perf).map
            CombinedRankEntry.combinedScore).Pairwise (fun a b => b ≤ a)) := by
  refine ⟨?_, ?_, ?_, ?_, ?_⟩
  · intro p
    rfl
  · intro p h
    rw [h]
    simp
  · intro p h
    rw [h]
    norm_num
  · intro perf
    have h1 : (generateEngineRankingsCombined perf).map
        (fun e => (e.engine, e.combinedScore))
        = (sortByScoreDesc (fun e => e.2.1) (combinedEntries perf)).map
            (fun e => (e.1, e.2.1)) := by
      unfold generateEngineRankingsCombined
      rw [List.map_map]
      exact rankFrom_map_comp (fun (e : String × ℚ × ℚ) => (e.1, e.2.1)) 1
        (sortByScoreDesc (fun e => e.2.1) (combinedEntries perf))
    rw [h1]
    have h2 := (sortByScoreDesc_perm (fun e => e.2.1) (combinedEntries perf)).map
      (fun (e : String × ℚ × ℚ) => (e.1, e.2.1))
    apply h2.trans
    rw [show (combinedEntries perf).map (fun e => (e.1, e.2.1))
        = perf.map (fun p => (p.1, combinedScoreOf p.2)) by
      unfold combinedEntries
      rw [List.map_map]
      rfl]
  · intro perf
    have h1 : (generateEngineRankingsCombined perf).map CombinedRankEntry.combinedScore
        = (sortByScoreDesc (fun e => e.2.1) (combinedEntries perf)).map
            (fun e => e.2.1) := by
      unfold generateEngineRankingsCombined
      rw [List.map_map]
      exact rankFrom_map_comp (fun (e : String × ℚ × ℚ) => e.2.1) 1
        (sortByScoreDesc (fun e => e.2.1) (combinedEntries perf))
    rw [h1]
    rw [List.pairwise_map]
    exact sortByScoreDesc_sorted (fun e => e.2.1) (combinedEntries perf)

/-- C5 witness: `c5_combined_ranking_amended` applied to a provider
with only a binary sample and to one with only a five-point sample. -/
theorem c5_combined_ranking_amended_witness :
    ((((⟨1, some ⟨2, 2, 2, 0, 3⟩, none⟩ : EnginePerformance).binaryStats.map
          ScaleStats.mean).getD 0) / 2
        + (((((⟨1, some ⟨2, 2, 2, 0, 3⟩, none⟩ : EnginePerformance).fivePointStats.map
          ScaleStats.mean).getD 0) - 1) / 4)) / 2
      = combinedScoreOf ⟨1, some ⟨2, 2, 2, 0, 3⟩, none⟩
  ∧ (((⟨1, none, some ⟨4, 4, 4, 0, 3⟩⟩ : EnginePerformance).binaryStats.map
        ScaleStats.mean).getD 0) / 2 = 0
  ∧ ((((⟨1, some ⟨2, 2, 2, 0, 3⟩, none⟩ : EnginePerformance).fivePointStats.map
        ScaleStats.mean).getD 0) - 1) / 4 = -(1 / 4) := by
  refine ⟨?_, ?_, ?_⟩
  · exact (c5_combined_ranking_amended.1 ⟨1, some ⟨2, 2, 2, 0, 3⟩, none⟩).symm
  · exact c5_combined_ranking_amended.2.1 ⟨1, none, some ⟨4, 4, 4, 0, 3⟩⟩ rfl
  · exact c5_combined_ranking_amended.2.2.1 ⟨1, some ⟨2, 2, 2, 0, 3⟩, none⟩ rfl

/-- Generic properties of a `rank + stable descending sort` pipeline:
dense 1-based ranks, descending scores, and tie classes kept in input
order.  Instantiated below for each ranking the engine produces. -/
theorem ranked_props {α β : Type _} (key : α → ℚ) (entries : List α)
    (mk : ℕ × α → β) (rankP : β → ℕ) (scoreP : β → ℚ) (payload : β → α)
    (hrank : ∀ p, rankP (mk p) = p.1)
    (hscore : ∀ p, scoreP (mk p) = key p.2)
    (hpayload : ∀ p, payload (mk p) = p.2) :
    (((rankFrom 1 (sortByScoreDesc key entries)).map mk).map rankP
        = List.range' 1 entries.length)
    ∧ ((((rankFrom 1 (sortByScoreDesc key entries)).map mk).map scoreP).Pairwise
        (fun a b => b ≤ a))
    ∧ (∀ q : ℚ, ((((rankFrom 1 (sortByScoreDesc key entries)).map mk).filter
          (fun e => scoreP e = q)).map payload)
        = entries.filter (fun a => key a = q)) := by
  refine ⟨?_, ?_, ?_⟩
  · rw [List.map_map]
    have h1 : (rankFrom 1 (sortByScoreDesc key entries)).map (rankP ∘ mk)
        = (rankFrom 1 (sortByScoreDesc key entries)).map Prod.fst :=
      List.map_congr_left (fun p _ => hrank p)
    rw [h1, rankFrom_map_fst]
    congr 1
    exact List.length_insertionSort _ _
  · rw [List.map_map]
    have h1 : (rankFrom 1 (sortByScoreDesc key entries)).map (scoreP ∘ mk)
        = (rankFrom 1 (sortByScoreDesc key entries)).map (fun p => key p.2) :=
      List.map_congr_left (fun p _ => hscore p)
    rw [h1, rankFrom_map_comp key 1 (sortByScoreDesc key entries), List.pairwise_map]
    exact sortByScoreDesc_sorted key entries
  · intro q
    rw [List.filter_map, List.map_map]
    have h1 : (rankFrom 1 (sortByScoreDesc key entries)).filter
          ((fun e => decide (scoreP e = q)) ∘ mk)
        = (rankFrom 1 (sortByScoreDesc key entries)).filter
          (fun p => decide (key p.2 = q)) := by
      apply List.filter_congr
      intro p _
      simp [Function.comp, hscore p]
    have h2 : ((rankFrom 1 (sortByScoreDesc key entries)).filter
          (fun p => decide (key p.2 = q))).map (payload ∘ mk)
        = ((rankFrom 1 (sortByScoreDesc key entries)).filter
          (fun p => decide (key p.2 = q))).map (fun p => id p.2) :=
      List.map_congr_left (fun p _ => hpayload p)
    rw [h1, h2, rankFrom_filter_map_snd id (fun a => decide (key a = q)) 1
      (sortByScoreDesc key entries)]
    rw [List.map_id]
    exact sortByScoreDesc_filter_key key q entries

/-- C9: every ranking the engine produces — the per-scale rankings of
the single-query summary and the per-scale and combined rankings of the
batch report — is sorted descending by score, carries 1-based dense
ranks (the rank column is exactly `1, 2, …, n`), and providers tied on
score keep their original iteration order (each score class of the
ranking equals the corresponding score class of the collected input, in
input order). -/
theorem c9_rankings_dense_descending_stable :
    (∀ (er : List (String × EngineRoundData)) (t : ScoringType),
        ((summaryRankings er t).map SummaryRankEntry.rank
            = List.range' 1 (summaryEngineScores er t).length)
        ∧ (((summaryRankings er t).map SummaryRankEntry.score).Pairwise
            (fun a b => b ≤ a))
        ∧ (∀ q : ℚ, (((summaryRankings er t).filter (fun e => e.score = q)).map
              (fun e => (e.engine, e.score)))
            = (summaryEngineScores er t).filter (fun p => p.2 = q)))
  ∧ (∀ (perf : List (String × EnginePerformance)) (t : ScoringType),
        ((generateEngineRankingsScale perf t).map ScaleRankEntry.rank
            = List.range' 1 (scaleRankingEntries perf t).length)
        ∧ (((generateEngineRankingsScale perf t).map ScaleRankEntry.score).Pairwise
            (fun a b => b ≤ a))
        ∧ (∀ q : ℚ, (((generateEngineRankingsScale perf t).filter
              (fun e => e.score = q)).map
                (fun e => (e.engine, e.score, e.stability, e.successRate)))
            = (scaleRankingEntries perf t).filter (fun p => p.2.1 = q)))
  ∧ (∀ perf : List (String × EnginePerformance),
        ((generateEngineRankingsCombined perf).map CombinedRankEntry.rank
            = List.range' 1 (combinedEntries perf).length)
        ∧ (((generateEngineRankingsCombined perf).map
              CombinedRankEntry.combinedScore).Pairwise (fun a b => b ≤ a))
        ∧ (∀ q : ℚ, (((generateEngineRankingsCombined perf).filter
              (fun e => e.combinedScore = q)).map
                (fun e => (e.engine, e.combinedScore, e.successRate)))
            = (combinedEntries perf).filter (fun p => p.2.1 = q))) := by
  refine ⟨?_, ?_, ?_⟩
  · intro er t
    exact ranked_props Prod.snd (summaryEngineScores er t)
      (fun p => ⟨p.1, p.2.1, p.2.2⟩) SummaryRankEntry.rank SummaryRankEntry.score
      (fun e => (e.engine, e.score))
      (fun _ => rfl) (fun _ => rfl) (fun _ => rfl)
  · intro perf t
    exact ranked_props (fun e => e.2.1) (scaleRankingEntries perf t)
      (fun p => ⟨p.1, p.2.1, p.2.2.1, p.2.2.2.1, p.2.2.2.2⟩)
      ScaleRankEntry.rank ScaleRankEntry.score
      (fun e => (e.engine, e.score, e.stability, e.successRate))
      (fun _ => rfl) (fun _ => rfl) (fun _ => rfl)
  · intro perf
    exact ranked_props (fun e => e.2.1) (combinedEntries perf)
      (fun p => ⟨p.1, p.2.1, p.2.2.1, p.2.2.2⟩)
      CombinedRankEntry.rank CombinedRankEntry.combinedScore
      (fun e => (e.engine, e.combinedScore, e.successRate))
      (fun _ => rfl) (fun _ => rfl) (fun _ => rfl)
